/-
  Verification of the LSRWA Express funds-custody ledger
  (shallow embedding of src/contracts/lib.rs, module lsrwa_express).

  Nat, Nat, Nat, Nat and Hash are modelled as Nat;
  ink storage Mappings are modelled as functions into Option; each contract
  message returns its Result together with the post-state and the list of
  events it emitted, in emission order.
-/
import Mathlib

/-- Request types enum (contract `RequestType`). -/
inductive RequestType where
  | Deposit
  | Withdrawal
  | Borrow
deriving DecidableEq, Repr

/-- Request validation result enum (contract `ValidationResult`). -/
inductive ValidationResult where
  | Valid
  | InvalidAmount
  | InsufficientBalance
  | UserNotRegistered
  | DailyLimitExceeded
  | RequestLimitExceeded
  | ValidationError
deriving DecidableEq, Repr

/-- Batch item status enum (contract `BatchItemStatus`). -/
inductive BatchItemStatus where
  | Included
  | Processed
  | Failed
deriving DecidableEq, Repr

/-- Request record (contract `Request`). -/
structure Request where
  id : Nat
  request_type : RequestType
  wallet_address : Nat
  amount : Nat
  collateral_amount : Option Nat
  timestamp : Nat
  is_processed : Bool
  block_number : Nat
  transaction_hash : Nat
deriving DecidableEq, Repr

/-- Processing event record (contract `ProcessingEvent`). -/
structure ProcessingEvent where
  id : Nat
  epoch_id : Nat
  processing_type : RequestType
  request_ids : List Nat
  processed_count : Nat
  transaction_hash : Nat
  block_number : Nat
  timestamp : Nat
deriving DecidableEq, Repr

/-- Execution event record (contract `ExecutionEvent`). -/
structure ExecutionEvent where
  id : Nat
  request_id : Nat
  wallet_address : Nat
  amount : Nat
  transaction_hash : Nat
  block_number : Nat
  timestamp : Nat
deriving DecidableEq, Repr

/-- Epoch record (contract `Epoch`).  Note: it carries no per-type
    processed counters; its only fields are the ones below. -/
structure Epoch where
  id : Nat
  start_timestamp : Nat
  end_timestamp : Option Nat
  is_active : Bool
  processed_at : Option Nat
  processing_tx_hash : Option Nat
deriving DecidableEq, Repr

/-- User record (contract `User`). -/
structure User where
  wallet_address : Nat
  is_registered : Bool
  active_balance : Nat
  pending_deposits : Nat
  pending_withdrawals : Nat
  total_rewards : Nat
  registered_at : Nat
deriving DecidableEq, Repr

/-- Events emitted by the contract (ink `#[ink(event)]` structs). -/
inductive Event where
  | DepositRequested (request_id : Nat) (wallet_address : Nat) (amount : Nat) (timestamp : Nat)
  | WithdrawalRequested (request_id : Nat) (wallet_address : Nat) (amount : Nat) (timestamp : Nat)
  | BorrowRequested (request_id : Nat) (wallet_address : Nat) (amount : Nat) (collateral_amount : Nat) (timestamp : Nat)
  | BatchProcessed (batch_id : Nat) (request_type : RequestType) (processed_count : Nat) (timestamp : Nat)
  | RequestExecuted (request_id : Nat) (wallet_address : Nat) (amount : Nat) (timestamp : Nat)
  | EpochCreated (epoch_id : Nat) (start_timestamp : Nat)
  | EpochClosed (epoch_id : Nat) (end_timestamp : Nat)
  | UserRegistered (wallet_address : Nat) (timestamp : Nat)
  | RequestValidationFailed (wallet_address : Nat) (request_type : RequestType) (amount : Nat) (reason : ValidationResult) (timestamp : Nat)
deriving DecidableEq, Repr

/-- The ambient ink execution environment of one call: caller,
    block timestamp, block number and the transaction hash the
    environment reports (`Self::env()`). -/
structure Env where
  caller : Nat
  block_timestamp : Nat
  block_number : Nat
  tx_hash : Nat
deriving DecidableEq, Repr

/-- `Mapping::insert`: point update of a map modelled as a function. -/
def mput {κ α : Type} [DecidableEq κ] (m : κ → Option α) (k : κ) (v : α) : κ → Option α :=
  fun q => if q = k then some v else m q

/-- Contract storage (contract struct `LsrwaExpress`). -/
structure LsrwaExpress where
  owner : Nat
  admin : Nat
  current_epoch_id : Nat
  next_request_id : Nat
  next_processing_event_id : Nat
  next_execution_event_id : Nat
  requests : Nat → Option Request
  request_ids_by_type : RequestType × Nat → Option Nat
  request_count_by_type : RequestType → Option Nat
  user_deposit_requests : Nat → Option (List Nat)
  user_withdrawal_requests : Nat → Option (List Nat)
  user_borrow_requests : Nat → Option (List Nat)
  processing_events : Nat → Option ProcessingEvent
  execution_events : Nat → Option ExecutionEvent
  epochs : Nat → Option Epoch
  users : Nat → Option User
  batch_items : Nat × Nat → Option BatchItemStatus
  daily_withdrawal_limit : Nat
  max_pending_requests : Nat
  min_deposit_amount : Nat
  min_withdrawal_amount : Nat
  last_limit_reset : Nat → Option Nat
  daily_withdrawal_total : Nat → Option Nat

/-- Result of one contract message: the returned `Result`, the post-state
    and the emitted events in order. -/
structure Out (α : Type) where
  res : Except String α
  st : LsrwaExpress
  ev : List Event

/-- Constructor `new`: caller becomes owner and admin, epoch 1 is created
    Active, limits take their hard-coded initial values. -/
def LsrwaExpress.new (e : Env) : LsrwaExpress :=
  let epoch : Epoch :=
    { id := 1, start_timestamp := e.block_timestamp, end_timestamp := none,
      is_active := true, processed_at := none, processing_tx_hash := none }
  { owner := e.caller
    admin := e.caller
    current_epoch_id := 1
    next_request_id := 1
    next_processing_event_id := 1
    next_execution_event_id := 1
    requests := fun _ => none
    request_ids_by_type := fun _ => none
    request_count_by_type := fun _ => none
    user_deposit_requests := fun _ => none
    user_withdrawal_requests := fun _ => none
    user_borrow_requests := fun _ => none
    processing_events := fun _ => none
    execution_events := fun _ => none
    epochs := mput (fun _ => none) 1 epoch
    users := fun _ => none
    batch_items := fun _ => none
    daily_withdrawal_limit := 10000
    max_pending_requests := 5
    min_deposit_amount := 10
    min_withdrawal_amount := 10
    last_limit_reset := fun _ => none
    daily_withdrawal_total := fun _ => none }

/-- Message `get_request_count`. -/
def get_request_count (s : LsrwaExpress) (request_type : RequestType) : Nat :=
  (s.request_count_by_type request_type).getD 0

/-- Message `set_daily_withdrawal_limit` (owner only). -/
def set_daily_withdrawal_limit (s : LsrwaExpress) (e : Env) (new_limit : Nat) : Out Unit :=
  if e.caller ≠ s.owner then ⟨Except.error ("Only owner can update limits"), s, []⟩
  else ⟨Except.ok (), { s with daily_withdrawal_limit := new_limit }, []⟩

/-- Message `set_max_pending_requests` (owner only). -/
def set_max_pending_requests (s : LsrwaExpress) (e : Env) (new_max : Nat) : Out Unit :=
  if e.caller ≠ s.owner then ⟨Except.error ("Only owner can update limits"), s, []⟩
  else ⟨Except.ok (), { s with max_pending_requests := new_max }, []⟩

/-- Message `set_min_deposit_amount` (owner only). -/
def set_min_deposit_amount (s : LsrwaExpress) (e : Env) (new_min : Nat) : Out Unit :=
  if e.caller ≠ s.owner then ⟨Except.error ("Only owner can update limits"), s, []⟩
  else ⟨Except.ok (), { s with min_deposit_amount := new_min }, []⟩

/-- Message `set_min_withdrawal_amount` (owner only). -/
def set_min_withdrawal_amount (s : LsrwaExpress) (e : Env) (new_min : Nat) : Out Unit :=
  if e.caller ≠ s.owner then ⟨Except.error ("Only owner can update limits"), s, []⟩
  else ⟨Except.ok (), { s with min_withdrawal_amount := new_min }, []⟩

/-- Message `update_registration_status` (owner or admin only). -/
def update_registration_status (s : LsrwaExpress) (e : Env) (wallet_address : Nat)
    (is_approved : Bool) : Out Unit :=
  if e.caller ≠ s.owner ∧ e.caller ≠ s.admin then
    ⟨Except.error ("Only owner or admin can update registration status"), s, []⟩
  else
    match s.users wallet_address with
    | none => ⟨Except.error ("User not found"), s, []⟩
    | some user =>
      ⟨Except.ok (),
       { s with users := mput s.users wallet_address { user with is_registered := is_approved } },
       if is_approved then [Event.UserRegistered wallet_address e.block_timestamp] else []⟩

/-- The pending-request counting loop shared by both validators: the number
    of ids in the list whose stored request exists and is not processed. -/
def pendingCountLoop (s : LsrwaExpress) (ids : List Nat) : Nat :=
  List.foldl
    (fun acc request_id =>
      match s.requests request_id with
      | some request => if request.is_processed = false then acc + 1 else acc
      | none => acc)
    0 ids

/-- Private fn `validate_deposit_request` (pure, `&self`). -/
def validate_deposit_request (s : LsrwaExpress) (caller : Nat) (amount : Nat) :
    ValidationResult :=
  if amount < s.min_deposit_amount then ValidationResult.InvalidAmount
  else
    let user_deposits := (s.user_deposit_requests caller).getD []
    let pending_count := pendingCountLoop s user_deposits
    if s.max_pending_requests ≤ pending_count then ValidationResult.RequestLimitExceeded
    else ValidationResult.Valid

/-- Private fn `validate_withdrawal_request` (`&mut self`): besides the
    outcome it returns the (possibly mutated) state, because the daily-cap
    check writes `last_limit_reset` and `daily_withdrawal_total`
    speculatively and only partially rolls the writes back on failure. -/
def validate_withdrawal_request (s : LsrwaExpress) (current_time : Nat)
    (caller : Nat) (amount : Nat) : ValidationResult × LsrwaExpress :=
  match s.users caller with
  | none => (ValidationResult.UserNotRegistered, s)
  | some user =>
    if user.is_registered = false then (ValidationResult.UserNotRegistered, s)
    else if amount < s.min_withdrawal_amount then (ValidationResult.InvalidAmount, s)
    else if user.active_balance < amount then (ValidationResult.InsufficientBalance, s)
    else
      let user_withdrawals := (s.user_withdrawal_requests caller).getD []
      let pending_count := pendingCountLoop s user_withdrawals
      if s.max_pending_requests ≤ pending_count then (ValidationResult.RequestLimitExceeded, s)
      else
        let last_reset := (s.last_limit_reset caller).getD 0
        let one_day := 86400000
        let dt : Nat × LsrwaExpress :=
          if last_reset + one_day < current_time then
            (amount,
             { s with last_limit_reset := mput s.last_limit_reset caller current_time,
                      daily_withdrawal_total := mput s.daily_withdrawal_total caller amount })
          else
            let current_total := (s.daily_withdrawal_total caller).getD 0
            let new_total := current_total + amount
            (new_total,
             { s with daily_withdrawal_total := mput s.daily_withdrawal_total caller new_total })
        let daily_total := dt.1
        let s1 := dt.2
        if s.daily_withdrawal_limit < daily_total then
          (ValidationResult.DailyLimitExceeded,
           { s1 with daily_withdrawal_total := mput s1.daily_withdrawal_total caller (daily_total - amount) })
        else (ValidationResult.Valid, s1)

/-- Message `create_deposit_request`. -/
def create_deposit_request (s : LsrwaExpress) (e : Env) (amount : Nat) : Out Nat :=
  let caller := e.caller
  if amount = 0 then ⟨Except.error ("Amount must be greater than zero"), s, []⟩
  else
    let validation_result := validate_deposit_request s caller amount
    if validation_result ≠ ValidationResult.Valid then
      ⟨(match validation_result with
        | ValidationResult.InvalidAmount => Except.error ("Amount is below minimum deposit amount")
        | ValidationResult.RequestLimitExceeded => Except.error ("Too many pending requests")
        | _ => Except.error ("Validation failed")),
       s,
       [Event.RequestValidationFailed caller RequestType.Deposit amount validation_result
          e.block_timestamp]⟩
    else
      -- auto-register the user on first deposit
      let regEvents : List Event :=
        match s.users caller with
        | some _ => []
        | none => [Event.UserRegistered caller e.block_timestamp]
      let s1 : LsrwaExpress :=
        match s.users caller with
        | some _ => s
        | none =>
          { s with users := mput s.users caller { wallet_address := caller, is_registered := true, active_balance := 0, pending_deposits := 0, pending_withdrawals := 0, total_rewards := 0, registered_at := e.block_timestamp } }
      let request_id := s1.next_request_id
      let s2 := { s1 with next_request_id := s1.next_request_id + 1 }
      let request : Request :=
        { id := request_id, request_type := RequestType.Deposit, wallet_address := caller,
          amount := amount, collateral_amount := none, timestamp := e.block_timestamp,
          is_processed := false, block_number := e.block_number,
          transaction_hash := e.tx_hash }
      let s3 := { s2 with requests := mput s2.requests request_id request }
      let current_count := get_request_count s3 RequestType.Deposit
      let s4 := { s3 with request_count_by_type := mput s3.request_count_by_type RequestType.Deposit (current_count + 1) }
      let s5 := { s4 with request_ids_by_type := mput s4.request_ids_by_type (RequestType.Deposit, current_count) request_id }
      let user_deposits := (s5.user_deposit_requests caller).getD []
      let s6 := { s5 with user_deposit_requests := mput s5.user_deposit_requests caller (user_deposits ++ [request_id]) }
      let s7 :=
        match s6.users caller with
        | some user =>
          { s6 with users := mput s6.users caller { user with pending_deposits := user.pending_deposits + amount } }
        | none => s6
      ⟨Except.ok request_id, s7,
       regEvents ++ [Event.DepositRequested request_id caller amount e.block_timestamp]⟩

/-- Message `create_withdrawal_request`. -/
def create_withdrawal_request (s : LsrwaExpress) (e : Env) (amount : Nat) : Out Nat :=
  let caller := e.caller
  if amount = 0 then ⟨Except.error ("Amount must be greater than zero"), s, []⟩
  else
    let vr := validate_withdrawal_request s e.block_timestamp caller amount
    let validation_result := vr.1
    let sv := vr.2
    if validation_result ≠ ValidationResult.Valid then
      ⟨(match validation_result with
        | ValidationResult.UserNotRegistered => Except.error ("User not registered")
        | ValidationResult.InvalidAmount => Except.error ("Amount is below minimum withdrawal amount")
        | ValidationResult.InsufficientBalance => Except.error ("Insufficient balance for withdrawal")
        | ValidationResult.RequestLimitExceeded => Except.error ("Too many pending requests")
        | ValidationResult.DailyLimitExceeded => Except.error ("Daily withdrawal limit exceeded")
        | _ => Except.error ("Validation failed")),
       sv,
       [Event.RequestValidationFailed caller RequestType.Withdrawal amount validation_result
          e.block_timestamp]⟩
    else
      let request_id := sv.next_request_id
      let s2 := { sv with next_request_id := sv.next_request_id + 1 }
      let request : Request :=
        { id := request_id, request_type := RequestType.Withdrawal, wallet_address := caller,
          amount := amount, collateral_amount := none, timestamp := e.block_timestamp,
          is_processed := false, block_number := e.block_number,
          transaction_hash := e.tx_hash }
      let s3 := { s2 with requests := mput s2.requests request_id request }
      let current_count := get_request_count s3 RequestType.Withdrawal
      let s4 := { s3 with request_count_by_type := mput s3.request_count_by_type RequestType.Withdrawal (current_count + 1) }
      let s5 := { s4 with request_ids_by_type := mput s4.request_ids_by_type (RequestType.Withdrawal, current_count) request_id }
      let user_withdrawals := (s5.user_withdrawal_requests caller).getD []
      let s6 := { s5 with user_withdrawal_requests := mput s5.user_withdrawal_requests caller (user_withdrawals ++ [request_id]) }
      let s7 :=
        match s6.users caller with
        | some user =>
          { s6 with users := mput s6.users caller { user with active_balance := user.active_balance - amount, pending_withdrawals := user.pending_withdrawals + amount } }
        | none => s6
      ⟨Except.ok request_id, s7,
       [Event.WithdrawalRequested request_id caller amount e.block_timestamp]⟩

/-- Message `process_deposit_request` (owner or admin only). -/
def process_deposit_request (s : LsrwaExpress) (e : Env) (request_id : Nat) : Out Unit :=
  let caller := e.caller
  if caller ≠ s.owner ∧ caller ≠ s.admin then
    ⟨Except.error ("Only owner or admin can process requests"), s, []⟩
  else
    match s.requests request_id with
    | none => ⟨Except.error ("Request not found"), s, []⟩
    | some request =>
      if request.request_type ≠ RequestType.Deposit then
        ⟨Except.error ("Not a deposit request"), s, []⟩
      else if request.is_processed then
        ⟨Except.error ("Request already processed"), s, []⟩
      else
        match s.users request.wallet_address with
        | none => ⟨Except.error ("User not found"), s, []⟩
        | some user =>
          if user.is_registered = false then ⟨Except.error ("User not registered"), s, []⟩
          else
            let user1 := { user with
              active_balance := user.active_balance + request.amount,
              pending_deposits := user.pending_deposits - request.amount }
            let request1 := { request with is_processed := true }
            let s1 := { s with users := mput s.users request.wallet_address user1,
                               requests := mput s.requests request_id request1 }
            let execution_id := s1.next_execution_event_id
            let s2 := { s1 with next_execution_event_id := s1.next_execution_event_id + 1 }
            let execution_event : ExecutionEvent :=
              { id := execution_id, request_id := request_id,
                wallet_address := request.wallet_address, amount := request.amount,
                transaction_hash := e.tx_hash, block_number := e.block_number,
                timestamp := e.block_timestamp }
            let s3 := { s2 with execution_events := mput s2.execution_events execution_id execution_event }
            ⟨Except.ok (), s3,
             [Event.RequestExecuted request_id request.wallet_address request.amount
                e.block_timestamp]⟩

/-- Message `process_withdrawal_request` (owner or admin only). -/
def process_withdrawal_request (s : LsrwaExpress) (e : Env) (request_id : Nat) : Out Unit :=
  let caller := e.caller
  if caller ≠ s.owner ∧ caller ≠ s.admin then
    ⟨Except.error ("Only owner or admin can process requests"), s, []⟩
  else
    match s.requests request_id with
    | none => ⟨Except.error ("Request not found"), s, []⟩
    | some request =>
      if request.request_type ≠ RequestType.Withdrawal then
        ⟨Except.error ("Not a withdrawal request"), s, []⟩
      else if request.is_processed then
        ⟨Except.error ("Request already processed"), s, []⟩
      else
        match s.users request.wallet_address with
        | none => ⟨Except.error ("User not found"), s, []⟩
        | some user =>
          if user.is_registered = false then ⟨Except.error ("User not registered"), s, []⟩
          else
            let user1 := { user with
              pending_withdrawals := user.pending_withdrawals - request.amount }
            let request1 := { request with is_processed := true }
            let s1 := { s with users := mput s.users request.wallet_address user1,
                               requests := mput s.requests request_id request1 }
            let execution_id := s1.next_execution_event_id
            let s2 := { s1 with next_execution_event_id := s1.next_execution_event_id + 1 }
            let execution_event : ExecutionEvent :=
              { id := execution_id, request_id := request_id,
                wallet_address := request.wallet_address, amount := request.amount,
                transaction_hash := e.tx_hash, block_number := e.block_number,
                timestamp := e.block_timestamp }
            let s3 := { s2 with execution_events := mput s2.execution_events execution_id execution_event }
            ⟨Except.ok (), s3,
             [Event.RequestExecuted request_id request.wallet_address request.amount
                e.block_timestamp]⟩

/-- One external call to the contract. -/
inductive Op where
  | createDeposit (e : Env) (amount : Nat)
  | createWithdrawal (e : Env) (amount : Nat)
  | processDeposit (e : Env) (request_id : Nat)
  | processWithdrawal (e : Env) (request_id : Nat)
  | updateRegistration (e : Env) (wallet_address : Nat) (is_approved : Bool)
  | setDailyLimit (e : Env) (v : Nat)
  | setMaxPending (e : Env) (v : Nat)
  | setMinDeposit (e : Env) (v : Nat)
  | setMinWithdrawal (e : Env) (v : Nat)

/-- State effect of one call. -/
def stepOp (s : LsrwaExpress) (op : Op) : LsrwaExpress :=
  match op with
  | Op.createDeposit e amount => (create_deposit_request s e amount).st
  | Op.createWithdrawal e amount => (create_withdrawal_request s e amount).st
  | Op.processDeposit e rid => (process_deposit_request s e rid).st
  | Op.processWithdrawal e rid => (process_withdrawal_request s e rid).st
  | Op.updateRegistration e w b => (update_registration_status s e w b).st
  | Op.setDailyLimit e v => (set_daily_withdrawal_limit s e v).st
  | Op.setMaxPending e v => (set_max_pending_requests s e v).st
  | Op.setMinDeposit e v => (set_min_deposit_amount s e v).st
  | Op.setMinWithdrawal e v => (set_min_withdrawal_amount s e v).st

/-- Run a sequence of calls. -/
def runOps (s : LsrwaExpress) (ops : List Op) : LsrwaExpress :=
  List.foldl stepOp s ops

/-- States reachable from a fresh contract by any sequence of calls. -/
inductive Reachable : LsrwaExpress → Prop where
  | init (e : Env) : Reachable (LsrwaExpress.new e)
  | step (s : LsrwaExpress) (op : Op) : Reachable s → Reachable (stepOp s op)

/-- Contribution of one stored request slot to a per-user request-amount
    sum: the amount, when the slot holds a request of the given account
    and type whose processed flag matches `pro`. -/
def contrib (ty : RequestType) (a : Nat) (pro : Bool) : Option Request → Nat
  | some r => if r.wallet_address = a ∧ r.request_type = ty ∧ r.is_processed = pro then r.amount else 0
  | none => 0

/-- Sum of the amounts of all stored requests of account `a` and type `ty`
    whose processed flag is `pro` (request ids all lie below
    `next_request_id`). -/
def reqSum (s : LsrwaExpress) (ty : RequestType) (a : Nat) (pro : Bool) : Nat :=
  Finset.sum (Finset.range s.next_request_id) (fun i => contrib ty a pro (s.requests i))

/-- Total amount of the unprocessed (pending) requests of `a` of type `ty`. -/
def pendingSum (s : LsrwaExpress) (ty : RequestType) (a : Nat) : Nat :=
  reqSum s ty a false

/-- Total amount of the processed (settled) requests of `a` of type `ty`. -/
def settledSum (s : LsrwaExpress) (ty : RequestType) (a : Nat) : Nat :=
  reqSum s ty a true

/-- Ledger invariant maintained by every contract call. -/
structure LedgerInv (s : LsrwaExpress) : Prop where
  oneLe : 1 ≤ s.next_request_id
  dom : ∀ i, (s.requests i).isSome = true ↔ (1 ≤ i ∧ i < s.next_request_id)
  idEq : ∀ i r, s.requests i = some r → r.id = i
  ownerSome : ∀ i r, s.requests i = some r → (s.users r.wallet_address).isSome = true
  pdEq : ∀ a u, s.users a = some u → u.pending_deposits = pendingSum s RequestType.Deposit a
  pwEq : ∀ a u, s.users a = some u → u.pending_withdrawals = pendingSum s RequestType.Withdrawal a
  conserve : ∀ a u, s.users a = some u →
    u.active_balance + u.pending_withdrawals + settledSum s RequestType.Withdrawal a
      = settledSum s RequestType.Deposit a

lemma reqSum_congr (s s' : LsrwaExpress) (ty : RequestType) (a : Nat) (pro : Bool)
    (hn : s'.next_request_id = s.next_request_id) (hr : ∀ i, s'.requests i = s.requests i) :
    reqSum s' ty a pro = reqSum s ty a pro := by
  unfold reqSum
  rw [hn]
  exact Finset.sum_congr rfl (fun i _ => by rw [hr i])

lemma reqSum_insert (s s' : LsrwaExpress) (ty : RequestType) (a : Nat) (pro : Bool)
    (r : Request)
    (hn : s'.next_request_id = s.next_request_id + 1)
    (hreq : ∀ i, s'.requests i = if i = s.next_request_id then some r else s.requests i) :
    reqSum s' ty a pro = reqSum s ty a pro + contrib ty a pro (some r) := by
  unfold reqSum
  rw [hn, Finset.sum_range_succ]
  congr 1
  · exact Finset.sum_congr rfl (fun i hi => by
      rw [hreq i, if_neg (Nat.ne_of_lt (Finset.mem_range.mp hi))])
  · rw [hreq s.next_request_id, if_pos rfl]

lemma reqSum_update (s s' : LsrwaExpress) (ty : RequestType) (a : Nat) (pro : Bool)
    (k : Nat) (r r1 : Request)
    (hn : s'.next_request_id = s.next_request_id)
    (hk : k < s.next_request_id) (hold : s.requests k = some r)
    (hreq : ∀ i, s'.requests i = if i = k then some r1 else s.requests i) :
    reqSum s' ty a pro + contrib ty a pro (some r)
      = reqSum s ty a pro + contrib ty a pro (some r1) := by
  unfold reqSum
  rw [hn]
  have hmem : k ∈ Finset.range s.next_request_id := Finset.mem_range.mpr hk
  rw [← Finset.sum_erase_add _ _ hmem, ← Finset.sum_erase_add _ (fun i => contrib ty a pro (s.requests i)) hmem]
  have hside : Finset.sum ((Finset.range s.next_request_id).erase k) (fun i => contrib ty a pro (s'.requests i))
      = Finset.sum ((Finset.range s.next_request_id).erase k) (fun i => contrib ty a pro (s.requests i)) := by
    refine Finset.sum_congr rfl (fun i hi => ?_)
    rw [hreq i, if_neg (Finset.ne_of_mem_erase hi)]
  rw [hside, hreq k, if_pos rfl, hold]
  ring

lemma contrib_le_reqSum (s : LsrwaExpress) (ty : RequestType) (a : Nat) (pro : Bool)
    (k : Nat) (hk : k < s.next_request_id) :
    contrib ty a pro (s.requests k) ≤ reqSum s ty a pro := by
  unfold reqSum
  exact Finset.single_le_sum (f := fun i => contrib ty a pro (s.requests i))
    (fun i _ => Nat.zero_le _) (Finset.mem_range.mpr hk)

lemma inv_of_fields (s s' : LsrwaExpress) (h : LedgerInv s)
    (hreq : s'.requests = s.requests) (hus : s'.users = s.users)
    (hn : s'.next_request_id = s.next_request_id) : LedgerInv s' := by
  have hsum : ∀ ty a pro, reqSum s' ty a pro = reqSum s ty a pro := fun ty a pro =>
    reqSum_congr s s' ty a pro hn (fun i => by rw [hreq])
  refine ⟨?_, ?_, ?_, ?_, ?_, ?_, ?_⟩
  · rw [hn]; exact h.oneLe
  · intro i; rw [hreq, hn]; exact h.dom i
  · intro i r hi; rw [hreq] at hi; exact h.idEq i r hi
  · intro i r hi; rw [hreq] at hi; rw [hus]; exact h.ownerSome i r hi
  · intro a u hu; rw [hus] at hu
    unfold pendingSum; rw [hsum]; exact h.pdEq a u hu
  · intro a u hu; rw [hus] at hu
    unfold pendingSum; rw [hsum]; exact h.pwEq a u hu
  · intro a u hu; rw [hus] at hu
    unfold settledSum; rw [hsum, hsum]; exact h.conserve a u hu

/-- The request record built by `create_deposit_request`. -/
def mkDepositRequest (s : LsrwaExpress) (e : Env) (amount : Nat) : Request :=
  { id := s.next_request_id, request_type := RequestType.Deposit,
    wallet_address := e.caller, amount := amount, collateral_amount := none,
    timestamp := e.block_timestamp, is_processed := false,
    block_number := e.block_number, transaction_hash := e.tx_hash }

/-- The request record built by `create_withdrawal_request`. -/
def mkWithdrawalRequest (s : LsrwaExpress) (e : Env) (amount : Nat) : Request :=
  { id := s.next_request_id, request_type := RequestType.Withdrawal,
    wallet_address := e.caller, amount := amount, collateral_amount := none,
    timestamp := e.block_timestamp, is_processed := false,
    block_number := e.block_number, transaction_hash := e.tx_hash }

lemma create_deposit_zero (s : LsrwaExpress) (e : Env) (amount : Nat) (h0 : amount = 0) :
    create_deposit_request s e amount =
      ⟨Except.error ("Amount must be greater than zero"), s, []⟩ := by
  unfold create_deposit_request
  rw [if_pos h0]

lemma create_deposit_fail (s : LsrwaExpress) (e : Env) (amount : Nat)
    (h0 : ¬ amount = 0) (hv : validate_deposit_request s e.caller amount ≠ ValidationResult.Valid) :
    create_deposit_request s e amount =
      ⟨(match validate_deposit_request s e.caller amount with
        | ValidationResult.InvalidAmount => Except.error ("Amount is below minimum deposit amount")
        | ValidationResult.RequestLimitExceeded => Except.error ("Too many pending requests")
        | _ => Except.error ("Validation failed")),
       s,
       [Event.RequestValidationFailed e.caller RequestType.Deposit amount
          (validate_deposit_request s e.caller amount) e.block_timestamp]⟩ := by
  unfold create_deposit_request
  rw [if_neg h0]
  simp only [ne_eq, hv, not_false_eq_true, if_true]

lemma create_deposit_ok_some (s : LsrwaExpress) (e : Env) (amount : Nat) (u : User)
    (h0 : ¬ amount = 0)
    (hv : validate_deposit_request s e.caller amount = ValidationResult.Valid)
    (hu : s.users e.caller = some u) :
    create_deposit_request s e amount =
      ⟨Except.ok s.next_request_id,
       { s with
          next_request_id := s.next_request_id + 1,
          requests := mput s.requests s.next_request_id (mkDepositRequest s e amount),
          request_count_by_type := mput s.request_count_by_type RequestType.Deposit
            (get_request_count s RequestType.Deposit + 1),
          request_ids_by_type := mput s.request_ids_by_type
            (RequestType.Deposit, get_request_count s RequestType.Deposit) s.next_request_id,
          user_deposit_requests := mput s.user_deposit_requests e.caller
            (((s.user_deposit_requests e.caller).getD []) ++ [s.next_request_id]),
          users := mput s.users e.caller
            { u with pending_deposits := u.pending_deposits + amount } },
       [Event.DepositRequested s.next_request_id e.caller amount e.block_timestamp]⟩ := by
  unfold create_deposit_request
  rw [if_neg h0, hv]
  simp only [ne_eq, not_true_eq_false, if_false, hu]
  rfl

/-- The fresh auto-registered user created on first deposit. -/
def freshUser (e : Env) : User :=
  { wallet_address := e.caller, is_registered := true, active_balance := 0,
    pending_deposits := 0, pending_withdrawals := 0, total_rewards := 0,
    registered_at := e.block_timestamp }

lemma create_deposit_ok_none (s : LsrwaExpress) (e : Env) (amount : Nat)
    (h0 : ¬ amount = 0)
    (hv : validate_deposit_request s e.caller amount = ValidationResult.Valid)
    (hu : s.users e.caller = none) :
    create_deposit_request s e amount =
      ⟨Except.ok s.next_request_id,
       { s with
          next_request_id := s.next_request_id + 1,
          requests := mput s.requests s.next_request_id (mkDepositRequest s e amount),
          request_count_by_type := mput s.request_count_by_type RequestType.Deposit
            (get_request_count s RequestType.Deposit + 1),
          request_ids_by_type := mput s.request_ids_by_type
            (RequestType.Deposit, get_request_count s RequestType.Deposit) s.next_request_id,
          user_deposit_requests := mput s.user_deposit_requests e.caller
            (((s.user_deposit_requests e.caller).getD []) ++ [s.next_request_id]),
          users := mput (mput s.users e.caller (freshUser e)) e.caller
            { freshUser e with pending_deposits := 0 + amount } },
       [Event.UserRegistered e.caller e.block_timestamp,
        Event.DepositRequested s.next_request_id e.caller amount e.block_timestamp]⟩ := by
  unfold create_deposit_request
  rw [if_neg h0, hv]
  simp only [ne_eq, not_true_eq_false, if_false, hu]
  simp [mput, freshUser, mkDepositRequest, get_request_count]

lemma validate_withdrawal_keeps (s : LsrwaExpress) (t : Nat) (c : Nat) (a : Nat) :
    ∃ llr dwt, (validate_withdrawal_request s t c a).2 =
      { s with last_limit_reset := llr, daily_withdrawal_total := dwt } := by
  unfold validate_withdrawal_request
  dsimp only
  repeat' split
  all_goals exact ⟨_, _, rfl⟩

lemma validate_withdrawal_valid_facts (s : LsrwaExpress) (t : Nat) (c : Nat)
    (a : Nat)
    (h : (validate_withdrawal_request s t c a).1 = ValidationResult.Valid) :
    ∃ u, s.users c = some u ∧ u.is_registered = true ∧ s.min_withdrawal_amount ≤ a ∧
      a ≤ u.active_balance := by
  unfold validate_withdrawal_request at h
  split at h
  · cases h
  · rename_i user husers
    split at h
    · cases h
    · rename_i hreg
      split at h
      · cases h
      · rename_i hmin
        split at h
        · cases h
        · rename_i hbal
          exact ⟨user, husers, by simpa using hreg, Nat.le_of_not_lt hmin,
            Nat.le_of_not_lt hbal⟩

lemma create_withdrawal_zero (s : LsrwaExpress) (e : Env) (amount : Nat) (h0 : amount = 0) :
    create_withdrawal_request s e amount =
      ⟨Except.error ("Amount must be greater than zero"), s, []⟩ := by
  unfold create_withdrawal_request
  rw [if_pos h0]

lemma create_withdrawal_fail (s : LsrwaExpress) (e : Env) (amount : Nat)
    (h0 : ¬ amount = 0)
    (hv : (validate_withdrawal_request s e.block_timestamp e.caller amount).1 ≠ ValidationResult.Valid) :
    create_withdrawal_request s e amount =
      ⟨(match (validate_withdrawal_request s e.block_timestamp e.caller amount).1 with
        | ValidationResult.UserNotRegistered => Except.error ("User not registered")
        | ValidationResult.InvalidAmount => Except.error ("Amount is below minimum withdrawal amount")
        | ValidationResult.InsufficientBalance => Except.error ("Insufficient balance for withdrawal")
        | ValidationResult.RequestLimitExceeded => Except.error ("Too many pending requests")
        | ValidationResult.DailyLimitExceeded => Except.error ("Daily withdrawal limit exceeded")
        | _ => Except.error ("Validation failed")),
       (validate_withdrawal_request s e.block_timestamp e.caller amount).2,
       [Event.RequestValidationFailed e.caller RequestType.Withdrawal amount
          (validate_withdrawal_request s e.block_timestamp e.caller amount).1 e.block_timestamp]⟩ := by
  unfold create_withdrawal_request
  rw [if_neg h0]
  simp only [ne_eq, hv, not_false_eq_true, if_true]

lemma create_withdrawal_ok (s : LsrwaExpress) (e : Env) (amount : Nat) (u : User)
    (llr dwt : Nat → Option Nat)
    (h0 : ¬ amount = 0)
    (hv : (validate_withdrawal_request s e.block_timestamp e.caller amount).1 = ValidationResult.Valid)
    (hk : (validate_withdrawal_request s e.block_timestamp e.caller amount).2 =
      { s with last_limit_reset := llr, daily_withdrawal_total := dwt })
    (hu : s.users e.caller = some u) :
    create_withdrawal_request s e amount =
      ⟨Except.ok s.next_request_id,
       { s with
          last_limit_reset := llr, daily_withdrawal_total := dwt,
          next_request_id := s.next_request_id + 1,
          requests := mput s.requests s.next_request_id (mkWithdrawalRequest s e amount),
          request_count_by_type := mput s.request_count_by_type RequestType.Withdrawal
            (get_request_count s RequestType.Withdrawal + 1),
          request_ids_by_type := mput s.request_ids_by_type
            (RequestType.Withdrawal, get_request_count s RequestType.Withdrawal) s.next_request_id,
          user_withdrawal_requests := mput s.user_withdrawal_requests e.caller
            (((s.user_withdrawal_requests e.caller).getD []) ++ [s.next_request_id]),
          users := mput s.users e.caller
            { u with active_balance := u.active_balance - amount,
                     pending_withdrawals := u.pending_withdrawals + amount } },
       [Event.WithdrawalRequested s.next_request_id e.caller amount e.block_timestamp]⟩ := by
  unfold create_withdrawal_request
  rw [if_neg h0]
  simp only [ne_eq, hv, not_true_eq_false, if_false, hk]
  simp only [hu, mkWithdrawalRequest, get_request_count]

/-- The execution event record built by the two process messages. -/
def mkExecutionEvent (s : LsrwaExpress) (e : Env) (request_id : Nat) (r : Request) :
    ExecutionEvent :=
  { id := s.next_execution_event_id, request_id := request_id,
    wallet_address := r.wallet_address, amount := r.amount,
    transaction_hash := e.tx_hash, block_number := e.block_number,
    timestamp := e.block_timestamp }

lemma process_deposit_ok (s : LsrwaExpress) (e : Env) (request_id : Nat) (r : Request) (u : User)
    (hauth : ¬ (e.caller ≠ s.owner ∧ e.caller ≠ s.admin))
    (hr : s.requests request_id = some r)
    (hty : r.request_type = RequestType.Deposit)
    (hp : r.is_processed = false)
    (hu : s.users r.wallet_address = some u)
    (hreg : u.is_registered = true) :
    process_deposit_request s e request_id =
      ⟨Except.ok (),
       { s with
          users := mput s.users r.wallet_address
            { u with active_balance := u.active_balance + r.amount,
                     pending_deposits := u.pending_deposits - r.amount },
          requests := mput s.requests request_id { r with is_processed := true },
          next_execution_event_id := s.next_execution_event_id + 1,
          execution_events := mput s.execution_events s.next_execution_event_id
            (mkExecutionEvent s e request_id r) },
       [Event.RequestExecuted request_id r.wallet_address r.amount e.block_timestamp]⟩ := by
  unfold process_deposit_request
  rw [if_neg hauth, hr]
  simp only [hty, ne_eq, not_true_eq_false, if_false, hp, Bool.false_eq_true, hu, hreg,
    Bool.true_eq_false, mkExecutionEvent]

lemma process_withdrawal_ok (s : LsrwaExpress) (e : Env) (request_id : Nat) (r : Request)
    (u : User)
    (hauth : ¬ (e.caller ≠ s.owner ∧ e.caller ≠ s.admin))
    (hr : s.requests request_id = some r)
    (hty : r.request_type = RequestType.Withdrawal)
    (hp : r.is_processed = false)
    (hu : s.users r.wallet_address = some u)
    (hreg : u.is_registered = true) :
    process_withdrawal_request s e request_id =
      ⟨Except.ok (),
       { s with
          users := mput s.users r.wallet_address
            { u with pending_withdrawals := u.pending_withdrawals - r.amount },
          requests := mput s.requests request_id { r with is_processed := true },
          next_execution_event_id := s.next_execution_event_id + 1,
          execution_events := mput s.execution_events s.next_execution_event_id
            (mkExecutionEvent s e request_id r) },
       [Event.RequestExecuted request_id r.wallet_address r.amount e.block_timestamp]⟩ := by
  unfold process_withdrawal_request
  rw [if_neg hauth, hr]
  simp only [hty, ne_eq, not_true_eq_false, if_false, hp, Bool.false_eq_true, hu, hreg,
    Bool.true_eq_false, mkExecutionEvent]

lemma process_deposit_st_or (s : LsrwaExpress) (e : Env) (request_id : Nat) :
    (process_deposit_request s e request_id).st = s ∨
    ∃ r u, s.requests request_id = some r ∧ r.request_type = RequestType.Deposit ∧
      r.is_processed = false ∧ s.users r.wallet_address = some u ∧ u.is_registered = true ∧
      ¬ (e.caller ≠ s.owner ∧ e.caller ≠ s.admin) := by
  unfold process_deposit_request
  dsimp only
  split
  · exact Or.inl rfl
  · rename_i hauth
    split
    · exact Or.inl rfl
    · rename_i r hr
      split
      · exact Or.inl rfl
      · rename_i hty
        split
        · exact Or.inl rfl
        · rename_i hp
          split
          · exact Or.inl rfl
          · rename_i u hu
            split
            · exact Or.inl rfl
            · rename_i hreg
              exact Or.inr ⟨r, u, hr, by simpa using hty, by simpa using hp, hu,
                by simpa using hreg, hauth⟩

lemma process_withdrawal_st_or (s : LsrwaExpress) (e : Env) (request_id : Nat) :
    (process_withdrawal_request s e request_id).st = s ∨
    ∃ r u, s.requests request_id = some r ∧ r.request_type = RequestType.Withdrawal ∧
      r.is_processed = false ∧ s.users r.wallet_address = some u ∧ u.is_registered = true ∧
      ¬ (e.caller ≠ s.owner ∧ e.caller ≠ s.admin) := by
  unfold process_withdrawal_request
  dsimp only
  split
  · exact Or.inl rfl
  · rename_i hauth
    split
    · exact Or.inl rfl
    · rename_i r hr
      split
      · exact Or.inl rfl
      · rename_i hty
        split
        · exact Or.inl rfl
        · rename_i hp
          split
          · exact Or.inl rfl
          · rename_i u hu
            split
            · exact Or.inl rfl
            · rename_i hreg
              exact Or.inr ⟨r, u, hr, by simpa using hty, by simpa using hp, hu,
                by simpa using hreg, hauth⟩

lemma update_registration_st_or (s : LsrwaExpress) (e : Env) (w : Nat) (b : Bool) :
    (update_registration_status s e w b).st = s ∨
    ∃ user, s.users w = some user ∧
      (update_registration_status s e w b).st =
        { s with users := mput s.users w { user with is_registered := b } } := by
  unfold update_registration_status
  split
  · exact Or.inl rfl
  · split
    · exact Or.inl rfl
    · rename_i user hu
      exact Or.inr ⟨user, hu, rfl⟩

lemma create_deposit_branches (s : LsrwaExpress) (e : Env) (amount : Nat) :
    (create_deposit_request s e amount).st = s ∨
    (¬ amount = 0 ∧ validate_deposit_request s e.caller amount = ValidationResult.Valid) := by
  by_cases h0 : amount = 0
  · rw [create_deposit_zero s e amount h0]
    exact Or.inl rfl
  · by_cases hv : validate_deposit_request s e.caller amount = ValidationResult.Valid
    · exact Or.inr ⟨h0, hv⟩
    · rw [create_deposit_fail s e amount h0 hv]
      exact Or.inl rfl

lemma create_withdrawal_branches (s : LsrwaExpress) (e : Env) (amount : Nat) :
    (∃ llr dwt, (create_withdrawal_request s e amount).st =
      { s with last_limit_reset := llr, daily_withdrawal_total := dwt }) ∨
    (¬ amount = 0 ∧
      (validate_withdrawal_request s e.block_timestamp e.caller amount).1 = ValidationResult.Valid) := by
  by_cases h0 : amount = 0
  · rw [create_withdrawal_zero s e amount h0]
    exact Or.inl ⟨_, _, rfl⟩
  · by_cases hv : (validate_withdrawal_request s e.block_timestamp e.caller amount).1 = ValidationResult.Valid
    · exact Or.inr ⟨h0, hv⟩
    · rw [create_withdrawal_fail s e amount h0 hv]
      exact Or.inl (validate_withdrawal_keeps s e.block_timestamp e.caller amount)

lemma contrib_ne (ty : RequestType) (a : Nat) (pro : Bool) (r : Request)
    (hw : ¬ r.wallet_address = a) : contrib ty a pro (some r) = 0 := by
  simp [contrib, hw]

lemma reqSum_of_no_user (s : LsrwaExpress) (h : LedgerInv s) (c : Nat)
    (hc : s.users c = none) (ty : RequestType) (pro : Bool) : reqSum s ty c pro = 0 := by
  unfold reqSum
  apply Finset.sum_eq_zero
  intro i _
  cases hr : s.requests i with
  | none => simp [contrib]
  | some r =>
    by_cases hw : r.wallet_address = c
    · have hs := h.ownerSome i r hr
      rw [hw, hc] at hs
      simp at hs
    · exact contrib_ne ty c pro r hw

lemma inv_after_insert (s s' : LsrwaExpress) (h : LedgerInv s) (c : Nat) (req : Request)
    (newU : User)
    (hn : s'.next_request_id = s.next_request_id + 1)
    (hreq : ∀ i, s'.requests i = if i = s.next_request_id then some req else s.requests i)
    (hus : ∀ a, s'.users a = if a = c then some newU else s.users a)
    (hrid : req.id = s.next_request_id)
    (hrw : req.wallet_address = c)
    (hpd : newU.pending_deposits = pendingSum s RequestType.Deposit c
      + contrib RequestType.Deposit c false (some req))
    (hpw : newU.pending_withdrawals = pendingSum s RequestType.Withdrawal c
      + contrib RequestType.Withdrawal c false (some req))
    (hcons : newU.active_balance + newU.pending_withdrawals
        + settledSum s RequestType.Withdrawal c + contrib RequestType.Withdrawal c true (some req)
      = settledSum s RequestType.Deposit c + contrib RequestType.Deposit c true (some req)) :
    LedgerInv s' := by
  have hsum : ∀ ty a pro, reqSum s' ty a pro = reqSum s ty a pro + contrib ty a pro (some req) :=
    fun ty a pro => reqSum_insert s s' ty a pro req hn hreq
  have hone := h.oneLe
  refine ⟨?_, ?_, ?_, ?_, ?_, ?_, ?_⟩
  · rw [hn]; omega
  · intro i
    rw [hreq i, hn]
    by_cases hi : i = s.next_request_id
    · subst hi
      simp only [if_pos rfl, Option.isSome_some]
      constructor
      · intro _; omega
      · intro _; rfl
    · rw [if_neg hi, h.dom i]
      omega
  · intro i r hi
    rw [hreq i] at hi
    by_cases hik : i = s.next_request_id
    · subst hik
      rw [if_pos rfl] at hi
      cases hi
      exact hrid
    · rw [if_neg hik] at hi
      exact h.idEq i r hi
  · intro i r hi
    rw [hreq i] at hi
    rw [hus r.wallet_address]
    by_cases hwc : r.wallet_address = c
    · rw [if_pos hwc]; rfl
    · rw [if_neg hwc]
      by_cases hik : i = s.next_request_id
      · subst hik
        rw [if_pos rfl] at hi
        cases hi
        exact absurd hrw hwc
      · rw [if_neg hik] at hi
        exact h.ownerSome i r hi
  · intro a u hu
    rw [hus a] at hu
    unfold pendingSum
    rw [hsum]
    by_cases hac : a = c
    · subst hac
      rw [if_pos rfl] at hu
      cases hu
      exact hpd
    · rw [if_neg hac] at hu
      rw [contrib_ne _ _ _ _ (fun hx => hac ((hrw ▸ hx).symm ▸ rfl))]
      rw [Nat.add_zero]
      exact h.pdEq a u hu
  · intro a u hu
    rw [hus a] at hu
    unfold pendingSum
    rw [hsum]
    by_cases hac : a = c
    · subst hac
      rw [if_pos rfl] at hu
      cases hu
      exact hpw
    · rw [if_neg hac] at hu
      rw [contrib_ne _ _ _ _ (fun hx => hac ((hrw ▸ hx).symm ▸ rfl))]
      rw [Nat.add_zero]
      exact h.pwEq a u hu
  · intro a u hu
    rw [hus a] at hu
    unfold settledSum
    rw [hsum, hsum]
    by_cases hac : a = c
    · subst hac
      rw [if_pos rfl] at hu
      cases hu
      unfold settledSum at hcons
      rw [← Nat.add_assoc]
      exact hcons
    · rw [if_neg hac] at hu
      rw [contrib_ne _ _ _ _ (fun hx => hac ((hrw ▸ hx).symm ▸ rfl)),
          contrib_ne _ _ _ _ (fun hx => hac ((hrw ▸ hx).symm ▸ rfl))]
      rw [Nat.add_zero, Nat.add_zero]
      exact h.conserve a u hu

lemma inv_after_flip (s s' : LsrwaExpress) (h : LedgerInv s) (k : Nat) (r r1 : Request)
    (w : Nat) (newU : User)
    (hn : s'.next_request_id = s.next_request_id)
    (hold : s.requests k = some r)
    (hreq : ∀ i, s'.requests i = if i = k then some r1 else s.requests i)
    (hus : ∀ a, s'.users a = if a = w then some newU else s.users a)
    (hrw : r.wallet_address = w)
    (hr1w : r1.wallet_address = w)
    (hr1id : r1.id = r.id)
    (hpd : newU.pending_deposits + contrib RequestType.Deposit w false (some r)
      = pendingSum s RequestType.Deposit w + contrib RequestType.Deposit w false (some r1))
    (hpw : newU.pending_withdrawals + contrib RequestType.Withdrawal w false (some r)
      = pendingSum s RequestType.Withdrawal w + contrib RequestType.Withdrawal w false (some r1))
    (hcons : newU.active_balance + newU.pending_withdrawals
        + contrib RequestType.Withdrawal w true (some r1)
        + contrib RequestType.Deposit w true (some r)
        + settledSum s RequestType.Withdrawal w
      = settledSum s RequestType.Deposit w + contrib RequestType.Deposit w true (some r1)
        + contrib RequestType.Withdrawal w true (some r)) :
    LedgerInv s' := by
  have hk1 : 1 ≤ k ∧ k < s.next_request_id := (h.dom k).mp (by rw [hold]; rfl)
  have hsum : ∀ ty a pro, reqSum s' ty a pro + contrib ty a pro (some r)
      = reqSum s ty a pro + contrib ty a pro (some r1) :=
    fun ty a pro => reqSum_update s s' ty a pro k r r1 hn hk1.2 hold hreq
  refine ⟨?_, ?_, ?_, ?_, ?_, ?_, ?_⟩
  · rw [hn]; exact h.oneLe
  · intro i
    rw [hreq i, hn]
    by_cases hik : i = k
    · rw [if_pos hik]
      simp only [Option.isSome_some, true_iff]
      omega
    · rw [if_neg hik]
      exact h.dom i
  · intro i rr hi
    rw [hreq i] at hi
    by_cases hik : i = k
    · rw [if_pos hik] at hi
      cases hi
      rw [hr1id, hik]
      exact h.idEq k r hold
    · rw [if_neg hik] at hi
      exact h.idEq i rr hi
  · intro i rr hi
    rw [hreq i] at hi
    rw [hus rr.wallet_address]
    by_cases hwc : rr.wallet_address = w
    · rw [if_pos hwc]; rfl
    · rw [if_neg hwc]
      by_cases hik : i = k
      · rw [if_pos hik] at hi
        cases hi
        exact absurd hr1w hwc
      · rw [if_neg hik] at hi
        exact h.ownerSome i rr hi
  · intro a u hu
    rw [hus a] at hu
    have hs := hsum RequestType.Deposit a false
    by_cases hac : a = w
    · subst hac
      rw [if_pos rfl] at hu
      cases hu
      unfold pendingSum at hpd ⊢
      exact Nat.add_right_cancel (hpd.trans hs.symm)
    · rw [if_neg hac] at hu
      have c1 : contrib RequestType.Deposit a false (some r) = 0 :=
        contrib_ne _ _ _ _ (fun hx => hac (by rw [← hx]; exact hrw))
      have c2 : contrib RequestType.Deposit a false (some r1) = 0 :=
        contrib_ne _ _ _ _ (fun hx => hac (by rw [← hx]; exact hr1w))
      rw [c1, c2, Nat.add_zero, Nat.add_zero] at hs
      have hb := h.pdEq a u hu
      unfold pendingSum at hb ⊢
      rw [hb, hs]
  · intro a u hu
    rw [hus a] at hu
    have hs := hsum RequestType.Withdrawal a false
    by_cases hac : a = w
    · subst hac
      rw [if_pos rfl] at hu
      cases hu
      unfold pendingSum at hpw ⊢
      exact Nat.add_right_cancel (hpw.trans hs.symm)
    · rw [if_neg hac] at hu
      have c1 : contrib RequestType.Withdrawal a false (some r) = 0 :=
        contrib_ne _ _ _ _ (fun hx => hac (by rw [← hx]; exact hrw))
      have c2 : contrib RequestType.Withdrawal a false (some r1) = 0 :=
        contrib_ne _ _ _ _ (fun hx => hac (by rw [← hx]; exact hr1w))
      rw [c1, c2, Nat.add_zero, Nat.add_zero] at hs
      have hb := h.pwEq a u hu
      unfold pendingSum at hb ⊢
      rw [hb, hs]
  · intro a u hu
    rw [hus a] at hu
    have hsD := hsum RequestType.Deposit a true
    have hsW := hsum RequestType.Withdrawal a true
    by_cases hac : a = w
    · subst hac
      rw [if_pos rfl] at hu
      cases hu
      unfold settledSum at hcons ⊢
      have hgoal :
          newU.active_balance + newU.pending_withdrawals + reqSum s' RequestType.Withdrawal a true
            + (contrib RequestType.Withdrawal a true (some r)
              + contrib RequestType.Deposit a true (some r))
          = reqSum s' RequestType.Deposit a true
            + (contrib RequestType.Withdrawal a true (some r)
              + contrib RequestType.Deposit a true (some r)) := by
        calc newU.active_balance + newU.pending_withdrawals + reqSum s' RequestType.Withdrawal a true
              + (contrib RequestType.Withdrawal a true (some r)
                + contrib RequestType.Deposit a true (some r))
            = newU.active_balance + newU.pending_withdrawals
              + (reqSum s' RequestType.Withdrawal a true + contrib RequestType.Withdrawal a true (some r))
              + contrib RequestType.Deposit a true (some r) := by ring
          _ = newU.active_balance + newU.pending_withdrawals
              + (reqSum s RequestType.Withdrawal a true + contrib RequestType.Withdrawal a true (some r1))
              + contrib RequestType.Deposit a true (some r) := by rw [hsW]
          _ = newU.active_balance + newU.pending_withdrawals
              + contrib RequestType.Withdrawal a true (some r1)
              + contrib RequestType.Deposit a true (some r)
              + reqSum s RequestType.Withdrawal a true := by ring
          _ = reqSum s RequestType.Deposit a true + contrib RequestType.Deposit a true (some r1)
              + contrib RequestType.Withdrawal a true (some r) := hcons
          _ = (reqSum s RequestType.Deposit a true + contrib RequestType.Deposit a true (some r1))
              + contrib RequestType.Withdrawal a true (some r) := by ring
          _ = (reqSum s' RequestType.Deposit a true + contrib RequestType.Deposit a true (some r))
              + contrib RequestType.Withdrawal a true (some r) := by rw [hsD]
          _ = reqSum s' RequestType.Deposit a true
              + (contrib RequestType.Withdrawal a true (some r)
                + contrib RequestType.Deposit a true (some r)) := by ring
      exact Nat.add_right_cancel hgoal
    · rw [if_neg hac] at hu
      have c1 : contrib RequestType.Deposit a true (some r) = 0 :=
        contrib_ne _ _ _ _ (fun hx => hac (by rw [← hx]; exact hrw))
      have c2 : contrib RequestType.Deposit a true (some r1) = 0 :=
        contrib_ne _ _ _ _ (fun hx => hac (by rw [← hx]; exact hr1w))
      have c3 : contrib RequestType.Withdrawal a true (some r) = 0 :=
        contrib_ne _ _ _ _ (fun hx => hac (by rw [← hx]; exact hrw))
      have c4 : contrib RequestType.Withdrawal a true (some r1) = 0 :=
        contrib_ne _ _ _ _ (fun hx => hac (by rw [← hx]; exact hr1w))
      rw [c1, c2, Nat.add_zero, Nat.add_zero] at hsD
      rw [c3, c4, Nat.add_zero, Nat.add_zero] at hsW
      have hb := h.conserve a u hu
      unfold settledSum at hb ⊢
      rw [hsD, hsW]
      exact hb

lemma contrib_dep_pending (s : LsrwaExpress) (e : Env) (amount : Nat) :
    contrib RequestType.Deposit e.caller false (some (mkDepositRequest s e amount)) = amount := by
  simp [contrib, mkDepositRequest]

lemma contrib_dep_other (s : LsrwaExpress) (e : Env) (amount : Nat) (pro : Bool) :
    contrib RequestType.Withdrawal e.caller pro (some (mkDepositRequest s e amount)) = 0 := by
  simp [contrib, mkDepositRequest]

lemma contrib_dep_settled (s : LsrwaExpress) (e : Env) (amount : Nat) :
    contrib RequestType.Deposit e.caller true (some (mkDepositRequest s e amount)) = 0 := by
  simp [contrib, mkDepositRequest]

lemma contrib_wd_pending (s : LsrwaExpress) (e : Env) (amount : Nat) :
    contrib RequestType.Withdrawal e.caller false (some (mkWithdrawalRequest s e amount)) = amount := by
  simp [contrib, mkWithdrawalRequest]

lemma contrib_wd_other (s : LsrwaExpress) (e : Env) (amount : Nat) (pro : Bool) :
    contrib RequestType.Deposit e.caller pro (some (mkWithdrawalRequest s e amount)) = 0 := by
  simp [contrib, mkWithdrawalRequest]

lemma contrib_wd_settled (s : LsrwaExpress) (e : Env) (amount : Nat) :
    contrib RequestType.Withdrawal e.caller true (some (mkWithdrawalRequest s e amount)) = 0 := by
  simp [contrib, mkWithdrawalRequest]

lemma inv_new (e : Env) : LedgerInv (LsrwaExpress.new e) := by
  refine ⟨Nat.le_refl 1, ?_, ?_, ?_, ?_, ?_, ?_⟩
  · intro i
    have h1 : (LsrwaExpress.new e).next_request_id = 1 := rfl
    constructor
    · intro hx; simp [LsrwaExpress.new] at hx
    · intro hx
      rw [h1] at hx
      exact absurd hx (by omega)
  · intro i r hx; simp [LsrwaExpress.new] at hx
  · intro i r hx; simp [LsrwaExpress.new] at hx
  · intro a u hx; simp [LsrwaExpress.new] at hx
  · intro a u hx; simp [LsrwaExpress.new] at hx
  · intro a u hx; simp [LsrwaExpress.new] at hx

lemma inv_createDeposit (s : LsrwaExpress) (e : Env) (amount : Nat) (h : LedgerInv s) :
    LedgerInv (create_deposit_request s e amount).st := by
  rcases create_deposit_branches s e amount with hst | ⟨h0, hv⟩
  · rw [hst]; exact h
  · rcases hq : s.users e.caller with _ | u
    · rw [create_deposit_ok_none s e amount h0 hv hq]
      have hz : ∀ ty pro, reqSum s ty e.caller pro = 0 :=
        fun ty pro => reqSum_of_no_user s h e.caller hq ty pro
      refine inv_after_insert s _ h e.caller (mkDepositRequest s e amount)
        { freshUser e with pending_deposits := 0 + amount } rfl
        (fun i => rfl) (fun a => ?_) rfl rfl ?_ ?_ ?_
      · by_cases hac : a = e.caller
        · simp [mput, hac]
        · simp [mput, hac]
      · show 0 + amount = pendingSum s RequestType.Deposit e.caller + _
        unfold pendingSum
        rw [hz, contrib_dep_pending]
      · show (0 : Nat) = pendingSum s RequestType.Withdrawal e.caller + _
        unfold pendingSum
        rw [hz, contrib_dep_other]
      · show 0 + 0 + settledSum s RequestType.Withdrawal e.caller + _ =
          settledSum s RequestType.Deposit e.caller + _
        unfold settledSum
        rw [hz, hz, contrib_dep_other, contrib_dep_settled]
    · rw [create_deposit_ok_some s e amount u h0 hv hq]
      refine inv_after_insert s _ h e.caller (mkDepositRequest s e amount)
        { u with pending_deposits := u.pending_deposits + amount } rfl
        (fun i => rfl) (fun a => rfl) rfl rfl ?_ ?_ ?_
      · show u.pending_deposits + amount = pendingSum s RequestType.Deposit e.caller + _
        rw [contrib_dep_pending, h.pdEq e.caller u hq]
      · show u.pending_withdrawals = pendingSum s RequestType.Withdrawal e.caller + _
        rw [contrib_dep_other, h.pwEq e.caller u hq, Nat.add_zero]
      · show u.active_balance + u.pending_withdrawals
            + settledSum s RequestType.Withdrawal e.caller + _
          = settledSum s RequestType.Deposit e.caller + _
        rw [contrib_dep_other, contrib_dep_settled, Nat.add_zero, Nat.add_zero]
        exact h.conserve e.caller u hq

lemma inv_createWithdrawal (s : LsrwaExpress) (e : Env) (amount : Nat) (h : LedgerInv s) :
    LedgerInv (create_withdrawal_request s e amount).st := by
  rcases create_withdrawal_branches s e amount with ⟨llr, dwt, hst⟩ | ⟨h0, hv⟩
  · rw [hst]
    exact inv_of_fields s _ h rfl rfl rfl
  · obtain ⟨u, hu, hureg, hmin, hbal⟩ :=
      validate_withdrawal_valid_facts s e.block_timestamp e.caller amount hv
    obtain ⟨llr, dwt, hk⟩ := validate_withdrawal_keeps s e.block_timestamp e.caller amount
    rw [create_withdrawal_ok s e amount u llr dwt h0 hv hk hu]
    refine inv_after_insert s _ h e.caller (mkWithdrawalRequest s e amount)
      { u with active_balance := u.active_balance - amount,
               pending_withdrawals := u.pending_withdrawals + amount } rfl
      (fun i => rfl) (fun a => rfl) rfl rfl ?_ ?_ ?_
    · show u.pending_deposits = pendingSum s RequestType.Deposit e.caller + _
      rw [contrib_wd_other, h.pdEq e.caller u hu, Nat.add_zero]
    · show u.pending_withdrawals + amount = pendingSum s RequestType.Withdrawal e.caller + _
      rw [contrib_wd_pending, h.pwEq e.caller u hu]
    · show u.active_balance - amount + (u.pending_withdrawals + amount)
          + settledSum s RequestType.Withdrawal e.caller + _
        = settledSum s RequestType.Deposit e.caller + _
      rw [contrib_wd_other, contrib_wd_settled, Nat.add_zero, Nat.add_zero]
      have hc := h.conserve e.caller u hu
      omega

lemma inv_user_replace (s s' : LsrwaExpress) (h : LedgerInv s) (w : Nat) (user newU : User)
    (hn : s'.next_request_id = s.next_request_id)
    (hreq : ∀ i, s'.requests i = s.requests i)
    (hus : ∀ a, s'.users a = if a = w then some newU else s.users a)
    (hu : s.users w = some user)
    (hb : newU.active_balance = user.active_balance)
    (hpd : newU.pending_deposits = user.pending_deposits)
    (hpw : newU.pending_withdrawals = user.pending_withdrawals) : LedgerInv s' := by
  have hsum : ∀ ty a pro, reqSum s' ty a pro = reqSum s ty a pro :=
    fun ty a pro => reqSum_congr s s' ty a pro hn hreq
  refine ⟨?_, ?_, ?_, ?_, ?_, ?_, ?_⟩
  · rw [hn]; exact h.oneLe
  · intro i; rw [hreq i, hn]; exact h.dom i
  · intro i r hi; rw [hreq i] at hi; exact h.idEq i r hi
  · intro i r hi
    rw [hreq i] at hi
    rw [hus r.wallet_address]
    by_cases hwc : r.wallet_address = w
    · rw [if_pos hwc]; rfl
    · rw [if_neg hwc]; exact h.ownerSome i r hi
  · intro a u hx
    rw [hus a] at hx
    unfold pendingSum
    rw [hsum]
    by_cases hac : a = w
    · rw [if_pos hac] at hx
      cases hx
      rw [hpd, hac]
      exact h.pdEq w user hu
    · rw [if_neg hac] at hx
      exact h.pdEq a u hx
  · intro a u hx
    rw [hus a] at hx
    unfold pendingSum
    rw [hsum]
    by_cases hac : a = w
    · rw [if_pos hac] at hx
      cases hx
      rw [hpw, hac]
      exact h.pwEq w user hu
    · rw [if_neg hac] at hx
      exact h.pwEq a u hx
  · intro a u hx
    rw [hus a] at hx
    unfold settledSum
    rw [hsum, hsum]
    by_cases hac : a = w
    · rw [if_pos hac] at hx
      cases hx
      rw [hb, hpw, hac]
      exact h.conserve w user hu
    · rw [if_neg hac] at hx
      exact h.conserve a u hx

lemma inv_processDeposit (s : LsrwaExpress) (e : Env) (rid : Nat) (h : LedgerInv s) :
    LedgerInv (process_deposit_request s e rid).st := by
  rcases process_deposit_st_or s e rid with hst | ⟨r, u, hr, hty, hp, hu, hreg, hauth⟩
  · rw [hst]; exact h
  · rw [process_deposit_ok s e rid r u hauth hr hty hp hu hreg]
    have hk : rid < s.next_request_id := ((h.dom rid).mp (by rw [hr]; rfl)).2
    have c1 : contrib RequestType.Deposit r.wallet_address false (some r) = r.amount := by
      simp [contrib, hty, hp]
    have c2 : contrib RequestType.Deposit r.wallet_address false
        (some { r with is_processed := true }) = 0 := by
      simp [contrib]
    have c3 : contrib RequestType.Withdrawal r.wallet_address false (some r) = 0 := by
      simp [contrib, hty]
    have c4 : contrib RequestType.Withdrawal r.wallet_address false
        (some { r with is_processed := true }) = 0 := by
      simp [contrib, hty]
    have c5 : contrib RequestType.Withdrawal r.wallet_address true (some r) = 0 := by
      simp [contrib, hty]
    have c6 : contrib RequestType.Withdrawal r.wallet_address true
        (some { r with is_processed := true }) = 0 := by
      simp [contrib, hty]
    have c7 : contrib RequestType.Deposit r.wallet_address true (some r) = 0 := by
      simp [contrib, hp]
    have c8 : contrib RequestType.Deposit r.wallet_address true
        (some { r with is_processed := true }) = r.amount := by
      simp [contrib, hty]
    have hle : r.amount ≤ u.pending_deposits := by
      rw [h.pdEq r.wallet_address u hu]
      have hcl := contrib_le_reqSum s RequestType.Deposit r.wallet_address false rid hk
      rw [hr, c1] at hcl
      exact hcl
    refine inv_after_flip s _ h rid r { r with is_processed := true } r.wallet_address
      { u with active_balance := u.active_balance + r.amount,
               pending_deposits := u.pending_deposits - r.amount }
      rfl hr (fun i => rfl) (fun a => rfl) rfl rfl rfl ?_ ?_ ?_
    · show u.pending_deposits - r.amount + _ = pendingSum s RequestType.Deposit r.wallet_address + _
      rw [c1, c2, ← h.pdEq r.wallet_address u hu]
      omega
    · show u.pending_withdrawals + _ = pendingSum s RequestType.Withdrawal r.wallet_address + _
      rw [c3, c4, ← h.pwEq r.wallet_address u hu]
    · show u.active_balance + r.amount + u.pending_withdrawals + _ + _
          + settledSum s RequestType.Withdrawal r.wallet_address
        = settledSum s RequestType.Deposit r.wallet_address + _ + _
      rw [c5, c6, c7, c8]
      have hc := h.conserve r.wallet_address u hu
      omega

lemma inv_processWithdrawal (s : LsrwaExpress) (e : Env) (rid : Nat) (h : LedgerInv s) :
    LedgerInv (process_withdrawal_request s e rid).st := by
  rcases process_withdrawal_st_or s e rid with hst | ⟨r, u, hr, hty, hp, hu, hreg, hauth⟩
  · rw [hst]; exact h
  · rw [process_withdrawal_ok s e rid r u hauth hr hty hp hu hreg]
    have hk : rid < s.next_request_id := ((h.dom rid).mp (by rw [hr]; rfl)).2
    have c1 : contrib RequestType.Withdrawal r.wallet_address false (some r) = r.amount := by
      simp [contrib, hty, hp]
    have c2 : contrib RequestType.Withdrawal r.wallet_address false
        (some { r with is_processed := true }) = 0 := by
      simp [contrib]
    have c3 : contrib RequestType.Deposit r.wallet_address false (some r) = 0 := by
      simp [contrib, hty]
    have c4 : contrib RequestType.Deposit r.wallet_address false
        (some { r with is_processed := true }) = 0 := by
      simp [contrib, hty]
    have c5 : contrib RequestType.Deposit r.wallet_address true (some r) = 0 := by
      simp [contrib, hty]
    have c6 : contrib RequestType.Deposit r.wallet_address true
        (some { r with is_processed := true }) = 0 := by
      simp [contrib, hty]
    have c7 : contrib RequestType.Withdrawal r.wallet_address true (some r) = 0 := by
      simp [contrib, hp]
    have c8 : contrib RequestType.Withdrawal r.wallet_address true
        (some { r with is_processed := true }) = r.amount := by
      simp [contrib, hty]
    have hle : r.amount ≤ u.pending_withdrawals := by
      rw [h.pwEq r.wallet_address u hu]
      have hcl := contrib_le_reqSum s RequestType.Withdrawal r.wallet_address false rid hk
      rw [hr, c1] at hcl
      exact hcl
    refine inv_after_flip s _ h rid r { r with is_processed := true } r.wallet_address
      { u with pending_withdrawals := u.pending_withdrawals - r.amount }
      rfl hr (fun i => rfl) (fun a => rfl) rfl rfl rfl ?_ ?_ ?_
    · show u.pending_deposits + _ = pendingSum s RequestType.Deposit r.wallet_address + _
      rw [c3, c4, ← h.pdEq r.wallet_address u hu]
    · show u.pending_withdrawals - r.amount + _
        = pendingSum s RequestType.Withdrawal r.wallet_address + _
      rw [c1, c2, ← h.pwEq r.wallet_address u hu]
      omega
    · show u.active_balance + (u.pending_withdrawals - r.amount) + _ + _
          + settledSum s RequestType.Withdrawal r.wallet_address
        = settledSum s RequestType.Deposit r.wallet_address + _ + _
      rw [c5, c6, c7, c8]
      have hc := h.conserve r.wallet_address u hu
      omega

lemma inv_updateRegistration (s : LsrwaExpress) (e : Env) (w : Nat) (b : Bool)
    (h : LedgerInv s) : LedgerInv (update_registration_status s e w b).st := by
  rcases update_registration_st_or s e w b with hst | ⟨user, hu, hst⟩
  · rw [hst]; exact h
  · rw [hst]
    exact inv_user_replace s _ h w user { user with is_registered := b }
      rfl (fun i => rfl) (fun a => rfl) hu rfl rfl rfl

lemma inv_step (s : LsrwaExpress) (op : Op) (h : LedgerInv s) : LedgerInv (stepOp s op) := by
  cases op with
  | createDeposit e amount => exact inv_createDeposit s e amount h
  | createWithdrawal e amount => exact inv_createWithdrawal s e amount h
  | processDeposit e rid => exact inv_processDeposit s e rid h
  | processWithdrawal e rid => exact inv_processWithdrawal s e rid h
  | updateRegistration e w b => exact inv_updateRegistration s e w b h
  | setDailyLimit e v =>
    show LedgerInv (set_daily_withdrawal_limit s e v).st
    unfold set_daily_withdrawal_limit
    split
    · exact h
    · exact inv_of_fields s _ h rfl rfl rfl
  | setMaxPending e v =>
    show LedgerInv (set_max_pending_requests s e v).st
    unfold set_max_pending_requests
    split
    · exact h
    · exact inv_of_fields s _ h rfl rfl rfl
  | setMinDeposit e v =>
    show LedgerInv (set_min_deposit_amount s e v).st
    unfold set_min_deposit_amount
    split
    · exact h
    · exact inv_of_fields s _ h rfl rfl rfl
  | setMinWithdrawal e v =>
    show LedgerInv (set_min_withdrawal_amount s e v).st
    unfold set_min_withdrawal_amount
    split
    · exact h
    · exact inv_of_fields s _ h rfl rfl rfl

/-- Every reachable state satisfies the ledger invariant. -/
lemma reachable_inv (s : LsrwaExpress) (h : Reachable s) : LedgerInv s := by
  induction h with
  | init e => exact inv_new e
  | step s op _ ih => exact inv_step s op ih

/-- Spec rule: the caller is not a registered user. -/
def regViolated (s : LsrwaExpress) (caller : Nat) : Bool :=
  match s.users caller with
  | none => true
  | some u => ! u.is_registered

/-- Spec rule: the amount is below the configured withdrawal minimum. -/
def minAmountViolated (s : LsrwaExpress) (amount : Nat) : Bool :=
  decide (amount < s.min_withdrawal_amount)

/-- Spec rule: the caller's active balance cannot cover the amount. -/
def balanceViolated (s : LsrwaExpress) (caller amount : Nat) : Bool :=
  match s.users caller with
  | none => true
  | some u => decide (u.active_balance < amount)

/-- Spec rule: the caller already has `max_pending_requests` unprocessed
    withdrawal requests. -/
def pendingCapViolated (s : LsrwaExpress) (caller : Nat) : Bool :=
  decide (s.max_pending_requests ≤
    pendingCountLoop s ((s.user_withdrawal_requests caller).getD []))

/-- Spec rule: the prospective daily total (after reset when more than a day
    has passed since the window start, accumulated otherwise) exceeds the
    daily withdrawal limit. -/
def dailyCapViolated (s : LsrwaExpress) (t caller amount : Nat) : Bool :=
  let last_reset := (s.last_limit_reset caller).getD 0
  let prospective :=
    if last_reset + 86400000 < t then amount
    else (s.daily_withdrawal_total caller).getD 0 + amount
  decide (s.daily_withdrawal_limit < prospective)

lemma validate_withdrawal_precedence (s : LsrwaExpress) (t : Nat) (c : Nat) (a : Nat) :
    (validate_withdrawal_request s t c a).1 =
      if regViolated s c then ValidationResult.UserNotRegistered
      else if minAmountViolated s a then ValidationResult.InvalidAmount
      else if balanceViolated s c a then ValidationResult.InsufficientBalance
      else if pendingCapViolated s c then ValidationResult.RequestLimitExceeded
      else if dailyCapViolated s t c a then ValidationResult.DailyLimitExceeded
      else ValidationResult.Valid := by
  unfold validate_withdrawal_request regViolated minAmountViolated balanceViolated
    pendingCapViolated dailyCapViolated
  rcases hu : s.users c with _ | u
  · simp
  · simp only [hu]
    by_cases hreg : u.is_registered = false
    · simp [hreg]
    · have hreg1 : u.is_registered = true := by
        cases hq : u.is_registered
        · exact absurd hq hreg
        · rfl
      simp only [hreg1, Bool.not_true, Bool.false_eq_true, if_false, if_neg hreg]
      by_cases hmin : a < s.min_withdrawal_amount
      · simp [hmin]
      · simp only [hmin, decide_eq_false, Bool.false_eq_true, if_false, if_neg hmin]
        by_cases hbal : u.active_balance < a
        · simp [hbal]
        · simp only [hbal, decide_eq_false, Bool.false_eq_true, if_false, if_neg hbal]
          by_cases hcap : s.max_pending_requests ≤
              pendingCountLoop s ((s.user_withdrawal_requests c).getD [])
          · simp [hcap]
          · simp only [hcap, decide_eq_false, Bool.false_eq_true, if_false, if_neg hcap]
            by_cases hday : (s.last_limit_reset c).getD 0 + 86400000 < t
            · simp only [hday, if_pos hday, if_true]
              by_cases hex : s.daily_withdrawal_limit < a
              · simp [hex]
              · simp [hex]
            · simp only [hday, if_neg hday, if_false]
              by_cases hex : s.daily_withdrawal_limit < (s.daily_withdrawal_total c).getD 0 + a
              · simp [hex]
              · simp [hex]

lemma create_deposit_res_spec (s : LsrwaExpress) (e : Env) (amount : Nat) :
    ((create_deposit_request s e amount).res = Except.ok s.next_request_id ∧
     (create_deposit_request s e amount).st.next_request_id = s.next_request_id + 1 ∧
     ¬ amount = 0 ∧ validate_deposit_request s e.caller amount = ValidationResult.Valid) ∨
    (∃ msg, (create_deposit_request s e amount).res = Except.error msg ∧
     (create_deposit_request s e amount).st.next_request_id = s.next_request_id) := by
  by_cases h0 : amount = 0
  · rw [create_deposit_zero s e amount h0]
    exact Or.inr ⟨_, rfl, rfl⟩
  · by_cases hv : validate_deposit_request s e.caller amount = ValidationResult.Valid
    · rcases hq : s.users e.caller with _ | u
      · rw [create_deposit_ok_none s e amount h0 hv hq]
        exact Or.inl ⟨rfl, rfl, h0, hv⟩
      · rw [create_deposit_ok_some s e amount u h0 hv hq]
        exact Or.inl ⟨rfl, rfl, h0, hv⟩
    · rw [create_deposit_fail s e amount h0 hv]
      refine Or.inr ?_
      cases hvr : validate_deposit_request s e.caller amount
      all_goals first
      | exact absurd hvr hv
      | exact ⟨_, rfl, rfl⟩

lemma create_withdrawal_res_spec (s : LsrwaExpress) (e : Env) (amount : Nat) :
    ((create_withdrawal_request s e amount).res = Except.ok s.next_request_id ∧
     (create_withdrawal_request s e amount).st.next_request_id = s.next_request_id + 1 ∧
     ¬ amount = 0 ∧
     (validate_withdrawal_request s e.block_timestamp e.caller amount).1 = ValidationResult.Valid) ∨
    (∃ msg, (create_withdrawal_request s e amount).res = Except.error msg ∧
     (create_withdrawal_request s e amount).st.next_request_id = s.next_request_id) := by
  by_cases h0 : amount = 0
  · rw [create_withdrawal_zero s e amount h0]
    exact Or.inr ⟨_, rfl, rfl⟩
  · by_cases hv : (validate_withdrawal_request s e.block_timestamp e.caller amount).1
        = ValidationResult.Valid
    · obtain ⟨u, hu, _, _, _⟩ :=
        validate_withdrawal_valid_facts s e.block_timestamp e.caller amount hv
      obtain ⟨llr, dwt, hk⟩ := validate_withdrawal_keeps s e.block_timestamp e.caller amount
      rw [create_withdrawal_ok s e amount u llr dwt h0 hv hk hu]
      exact Or.inl ⟨rfl, rfl, h0, hv⟩
    · rw [create_withdrawal_fail s e amount h0 hv]
      refine Or.inr ?_
      obtain ⟨llr, dwt, hk⟩ := validate_withdrawal_keeps s e.block_timestamp e.caller amount
      cases hvr : (validate_withdrawal_request s e.block_timestamp e.caller amount).1
      all_goals first
      | exact absurd hvr hv
      | exact ⟨_, rfl, by rw [hk]⟩

lemma process_deposit_spec (s : LsrwaExpress) (e : Env) (rid : Nat) :
    (∃ msg, process_deposit_request s e rid = ⟨Except.error msg, s, []⟩) ∨
    (∃ r u, s.requests rid = some r ∧ r.request_type = RequestType.Deposit ∧
      r.is_processed = false ∧ s.users r.wallet_address = some u ∧ u.is_registered = true ∧
      ¬ (e.caller ≠ s.owner ∧ e.caller ≠ s.admin)) := by
  unfold process_deposit_request
  dsimp only
  split
  · exact Or.inl ⟨_, rfl⟩
  · rename_i hauth
    split
    · exact Or.inl ⟨_, rfl⟩
    · rename_i r hr
      split
      · exact Or.inl ⟨_, rfl⟩
      · rename_i hty
        split
        · exact Or.inl ⟨_, rfl⟩
        · rename_i hp
          split
          · exact Or.inl ⟨_, rfl⟩
          · rename_i u hu
            split
            · exact Or.inl ⟨_, rfl⟩
            · rename_i hreg
              exact Or.inr ⟨r, u, hr, by simpa using hty, by simpa using hp, hu,
                by simpa using hreg, hauth⟩

lemma process_withdrawal_spec (s : LsrwaExpress) (e : Env) (rid : Nat) :
    (∃ msg, process_withdrawal_request s e rid = ⟨Except.error msg, s, []⟩) ∨
    (∃ r u, s.requests rid = some r ∧ r.request_type = RequestType.Withdrawal ∧
      r.is_processed = false ∧ s.users r.wallet_address = some u ∧ u.is_registered = true ∧
      ¬ (e.caller ≠ s.owner ∧ e.caller ≠ s.admin)) := by
  unfold process_withdrawal_request
  dsimp only
  split
  · exact Or.inl ⟨_, rfl⟩
  · rename_i hauth
    split
    · exact Or.inl ⟨_, rfl⟩
    · rename_i r hr
      split
      · exact Or.inl ⟨_, rfl⟩
      · rename_i hty
        split
        · exact Or.inl ⟨_, rfl⟩
        · rename_i hp
          split
          · exact Or.inl ⟨_, rfl⟩
          · rename_i u hu
            split
            · exact Or.inl ⟨_, rfl⟩
            · rename_i hreg
              exact Or.inr ⟨r, u, hr, by simpa using hty, by simpa using hp, hu,
                by simpa using hreg, hauth⟩

lemma process_deposit_already (s : LsrwaExpress) (e : Env) (rid : Nat) (r : Request)
    (hauth : ¬ (e.caller ≠ s.owner ∧ e.caller ≠ s.admin))
    (hr : s.requests rid = some r)
    (hty : r.request_type = RequestType.Deposit)
    (hp : r.is_processed = true) :
    process_deposit_request s e rid = ⟨Except.error ("Request already processed"), s, []⟩ := by
  unfold process_deposit_request
  rw [if_neg hauth, hr]
  simp only [hty, ne_eq, not_true_eq_false, if_false, hp, if_true]

lemma process_withdrawal_already (s : LsrwaExpress) (e : Env) (rid : Nat) (r : Request)
    (hauth : ¬ (e.caller ≠ s.owner ∧ e.caller ≠ s.admin))
    (hr : s.requests rid = some r)
    (hty : r.request_type = RequestType.Withdrawal)
    (hp : r.is_processed = true) :
    process_withdrawal_request s e rid = ⟨Except.error ("Request already processed"), s, []⟩ := by
  unfold process_withdrawal_request
  rw [if_neg hauth, hr]
  simp only [hty, ne_eq, not_true_eq_false, if_false, hp, if_true]

lemma reachable_runOps (s : LsrwaExpress) (h : Reachable s) (ops : List Op) :
    Reachable (runOps s ops) := by
  induction ops generalizing s with
  | nil => exact h
  | cons op rest ih => exact ih (stepOp s op) (Reachable.step s op h)

/-- Deployment environment: account 1 instantiates the contract. -/
def baseEnv : Env := ⟨1, 0, 0, 0⟩

/-- A call by account 2 ("the user") at time `t`. -/
def bobEnv (t : Nat) : Env := ⟨2, t, 0, 0⟩

/-- A call by account 1 (owner and admin) at time `t`. -/
def adminEnv (t : Nat) : Env := ⟨1, t, 0, 0⟩

/-- Freshly deployed contract. -/
def state0 : LsrwaExpress := LsrwaExpress.new baseEnv

/-- One unprocessed deposit request of 1000 by account 2. -/
def c2state : LsrwaExpress := runOps state0 [Op.createDeposit (bobEnv 0) 1000]

/-- Deposit of 1000 by account 2, settled. -/
def c8state : LsrwaExpress :=
  runOps state0 [Op.createDeposit (bobEnv 0) 1000, Op.processDeposit (adminEnv 0) 1]

/-- Deposit of 1000 settled, then a withdrawal of 300 settled. -/
def c3state : LsrwaExpress :=
  runOps state0 [Op.createDeposit (bobEnv 0) 1000, Op.processDeposit (adminEnv 0) 1,
    Op.createWithdrawal (bobEnv 0) 300, Op.processWithdrawal (adminEnv 0) 2]

/-- Deposit of 20000 settled, then a withdrawal of 5000 created the same
    day, leaving a day-one rate-limit window with total 5000. -/
def c1state : LsrwaExpress :=
  runOps state0 [Op.createDeposit (bobEnv 0) 20000, Op.processDeposit (adminEnv 0) 1,
    Op.createWithdrawal (bobEnv 0) 5000]

/-- Scenario D start: deposit of 20000 settled. -/
def d10pre : LsrwaExpress :=
  runOps state0 [Op.createDeposit (bobEnv 0) 20000, Op.processDeposit (adminEnv 0) 1]

/-- Scenario D after the first withdrawal of 10000 (the daily limit). -/
def d10s3 : LsrwaExpress :=
  runOps state0 [Op.createDeposit (bobEnv 0) 20000, Op.processDeposit (adminEnv 0) 1,
    Op.createWithdrawal (bobEnv 0) 10000]

/-- C2 (amended): neither `process_deposit_request` nor
    `process_withdrawal_request` modifies any epoch, the current epoch id,
    or the only per-type counters the contract has
    (`request_count_by_type`, which counts created requests): the contract
    keeps no per-type processed counter on epochs, so settlement increments
    none. -/
theorem c2_settlement_touches_no_epoch :
    ∀ (s : LsrwaExpress) (e : Env) (rid : Nat),
      ((process_deposit_request s e rid).st.epochs = s.epochs ∧
       (process_deposit_request s e rid).st.current_epoch_id = s.current_epoch_id ∧
       (process_deposit_request s e rid).st.request_count_by_type = s.request_count_by_type) ∧
      ((process_withdrawal_request s e rid).st.epochs = s.epochs ∧
       (process_withdrawal_request s e rid).st.current_epoch_id = s.current_epoch_id ∧
       (process_withdrawal_request s e rid).st.request_count_by_type
         = s.request_count_by_type) := by
  intro s e rid
  constructor
  · rcases process_deposit_spec s e rid with ⟨msg, hm⟩ | ⟨r, u, hr, hty, hp, hu, hreg, hauth⟩
    · rw [hm]
      exact ⟨rfl, rfl, rfl⟩
    · rw [process_deposit_ok s e rid r u hauth hr hty hp hu hreg]
      exact ⟨rfl, rfl, rfl⟩
  · rcases process_withdrawal_spec s e rid with ⟨msg, hm⟩ | ⟨r, u, hr, hty, hp, hu, hreg, hauth⟩
    · rw [hm]
      exact ⟨rfl, rfl, rfl⟩
    · rw [process_withdrawal_ok s e rid r u hauth hr hty hp hu hreg]
      exact ⟨rfl, rfl, rfl⟩

/-- C2 counterexample: a concrete successful `process_deposit_request`
    after which epoch 1 — the Active epoch at settlement time — and every
    epoch-related field are exactly as before: no processed counter
    exists, so none was incremented. -/
theorem c2_counterexample :
    (process_deposit_request c2state (adminEnv 0) 1).res = Except.ok () ∧
    (process_deposit_request c2state (adminEnv 0) 1).st.epochs = c2state.epochs ∧
    (process_deposit_request c2state (adminEnv 0) 1).st.current_epoch_id
      = c2state.current_epoch_id ∧
    c2state.epochs 1 = some ⟨1, 0, none, true, none, none⟩ := by
  exact ⟨rfl, rfl, rfl, by decide⟩

/-- C6: a successful `process_deposit_request` marks the request processed,
    adds its amount to the owner's active balance and subtracts it from
    pending deposits; a successful `process_withdrawal_request` marks the
    request processed and subtracts its amount from pending withdrawals
    only, leaving the active balance unchanged. -/
theorem c6_settlement_transition :
    ∀ (s : LsrwaExpress) (e : Env) (rid : Nat) (r : Request) (u : User),
      ¬ (e.caller ≠ s.owner ∧ e.caller ≠ s.admin) →
      s.requests rid = some r →
      s.users r.wallet_address = some u →
      u.is_registered = true →
      r.is_processed = false →
      (r.request_type = RequestType.Deposit →
        (process_deposit_request s e rid).res = Except.ok () ∧
        (process_deposit_request s e rid).st.requests rid
          = some { r with is_processed := true } ∧
        (process_deposit_request s e rid).st.users r.wallet_address
          = some { u with active_balance := u.active_balance + r.amount,
                          pending_deposits := u.pending_deposits - r.amount }) ∧
      (r.request_type = RequestType.Withdrawal →
        (process_withdrawal_request s e rid).res = Except.ok () ∧
        (process_withdrawal_request s e rid).st.requests rid
          = some { r with is_processed := true } ∧
        (process_withdrawal_request s e rid).st.users r.wallet_address
          = some { u with pending_withdrawals := u.pending_withdrawals - r.amount }) := by
  intro s e rid r u hauth hr hu hreg hp
  constructor
  · intro hty
    rw [process_deposit_ok s e rid r u hauth hr hty hp hu hreg]
    refine ⟨rfl, ?_, ?_⟩
    · simp [mput]
    · simp [mput]
  · intro hty
    rw [process_withdrawal_ok s e rid r u hauth hr hty hp hu hreg]
    refine ⟨rfl, ?_, ?_⟩
    · simp [mput]
    · simp [mput]

/-- C6 witness: settling the concrete deposit request 1 of 1000 credits the
    owner's active balance and clears the pending deposit. -/
theorem c6_settlement_transition_witness :
    (process_deposit_request c2state (adminEnv 0) 1).res = Except.ok () ∧
    (process_deposit_request c2state (adminEnv 0) 1).st.users 2 =
      some { wallet_address := 2, is_registered := true, active_balance := 0 + 1000,
             pending_deposits := 1000 - 1000, pending_withdrawals := 0, total_rewards := 0,
             registered_at := 0 } := by
  have h := c6_settlement_transition c2state (adminEnv 0) 1
    { id := 1, request_type := RequestType.Deposit, wallet_address := 2, amount := 1000,
      collateral_amount := none, timestamp := 0, is_processed := false, block_number := 0,
      transaction_hash := 0 }
    { wallet_address := 2, is_registered := true, active_balance := 0, pending_deposits := 1000,
      pending_withdrawals := 0, total_rewards := 0, registered_at := 0 }
    (by decide) (by decide) (by decide) (by decide) (by decide)
  obtain ⟨hd, _⟩ := h
  have h2 := hd rfl
  exact ⟨h2.1, h2.2.2⟩

/-- C8: in any reachable state, a processed request is never modified by
    any further call (is_processed flips false to true at most once), and
    calling the matching process message on an already-processed request
    fails with the AlreadyProcessed error, returns the state unchanged and
    emits nothing. -/
theorem c8_already_processed :
    ∀ (s : LsrwaExpress), Reachable s →
      (∀ (op : Op) (i : Nat) (r : Request), s.requests i = some r → r.is_processed = true →
        (stepOp s op).requests i = some r) ∧
      (∀ (e : Env) (rid : Nat) (r : Request),
        ¬ (e.caller ≠ s.owner ∧ e.caller ≠ s.admin) →
        s.requests rid = some r → r.request_type = RequestType.Deposit →
        r.is_processed = true →
        process_deposit_request s e rid
          = ⟨Except.error ("Request already processed"), s, []⟩) ∧
      (∀ (e : Env) (rid : Nat) (r : Request),
        ¬ (e.caller ≠ s.owner ∧ e.caller ≠ s.admin) →
        s.requests rid = some r → r.request_type = RequestType.Withdrawal →
        r.is_processed = true →
        process_withdrawal_request s e rid
          = ⟨Except.error ("Request already processed"), s, []⟩) := by
  intro s hreach
  have hinv := reachable_inv s hreach
  refine ⟨?_, ?_, ?_⟩
  · intro op i r hr0 hp0
    have hin : i < s.next_request_id := ((hinv.dom i).mp (by rw [hr0]; rfl)).2
    cases op with
    | createDeposit e amount =>
      show (create_deposit_request s e amount).st.requests i = some r
      rcases create_deposit_branches s e amount with hst | ⟨h0, hv⟩
      · rw [hst]; exact hr0
      · rcases hq : s.users e.caller with _ | u
        · rw [create_deposit_ok_none s e amount h0 hv hq]
          show mput s.requests s.next_request_id (mkDepositRequest s e amount) i = some r
          rw [mput, if_neg (Nat.ne_of_lt hin)]
          exact hr0
        · rw [create_deposit_ok_some s e amount u h0 hv hq]
          show mput s.requests s.next_request_id (mkDepositRequest s e amount) i = some r
          rw [mput, if_neg (Nat.ne_of_lt hin)]
          exact hr0
    | createWithdrawal e amount =>
      show (create_withdrawal_request s e amount).st.requests i = some r
      rcases create_withdrawal_branches s e amount with ⟨llr, dwt, hst⟩ | ⟨h0, hv⟩
      · rw [hst]; exact hr0
      · obtain ⟨u, hu, _, _, _⟩ :=
          validate_withdrawal_valid_facts s e.block_timestamp e.caller amount hv
        obtain ⟨llr, dwt, hk⟩ := validate_withdrawal_keeps s e.block_timestamp e.caller amount
        rw [create_withdrawal_ok s e amount u llr dwt h0 hv hk hu]
        show mput s.requests s.next_request_id (mkWithdrawalRequest s e amount) i = some r
        rw [mput, if_neg (Nat.ne_of_lt hin)]
        exact hr0
    | processDeposit e rid =>
      show (process_deposit_request s e rid).st.requests i = some r
      rcases process_deposit_spec s e rid with ⟨msg, hm⟩ | ⟨r1, u, hr1, hty, hp1, hu, hreg, hauth⟩
      · rw [hm]; exact hr0
      · rw [process_deposit_ok s e rid r1 u hauth hr1 hty hp1 hu hreg]
        show mput s.requests rid { r1 with is_processed := true } i = some r
        by_cases hik : i = rid
        · subst hik
          rw [hr0] at hr1
          cases hr1
          rw [hp0] at hp1
          cases hp1
        · rw [mput, if_neg hik]
          exact hr0
    | processWithdrawal e rid =>
      show (process_withdrawal_request s e rid).st.requests i = some r
      rcases process_withdrawal_spec s e rid with ⟨msg, hm⟩ | ⟨r1, u, hr1, hty, hp1, hu, hreg, hauth⟩
      · rw [hm]; exact hr0
      · rw [process_withdrawal_ok s e rid r1 u hauth hr1 hty hp1 hu hreg]
        show mput s.requests rid { r1 with is_processed := true } i = some r
        by_cases hik : i = rid
        · subst hik
          rw [hr0] at hr1
          cases hr1
          rw [hp0] at hp1
          cases hp1
        · rw [mput, if_neg hik]
          exact hr0
    | updateRegistration e w b =>
      show (update_registration_status s e w b).st.requests i = some r
      rcases update_registration_st_or s e w b with hst | ⟨user, hu, hst⟩
      · rw [hst]; exact hr0
      · rw [hst]; exact hr0
    | setDailyLimit e v =>
      show (set_daily_withdrawal_limit s e v).st.requests i = some r
      unfold set_daily_withdrawal_limit
      split
      · exact hr0
      · exact hr0
    | setMaxPending e v =>
      show (set_max_pending_requests s e v).st.requests i = some r
      unfold set_max_pending_requests
      split
      · exact hr0
      · exact hr0
    | setMinDeposit e v =>
      show (set_min_deposit_amount s e v).st.requests i = some r
      unfold set_min_deposit_amount
      split
      · exact hr0
      · exact hr0
    | setMinWithdrawal e v =>
      show (set_min_withdrawal_amount s e v).st.requests i = some r
      unfold set_min_withdrawal_amount
      split
      · exact hr0
      · exact hr0
  · intro e rid r hauth hr hty hp
    exact process_deposit_already s e rid r hauth hr hty hp
  · intro e rid r hauth hr hty hp
    exact process_withdrawal_already s e rid r hauth hr hty hp

/-- C8 witness: re-processing the already-settled deposit request 1 fails
    with AlreadyProcessed and leaves the whole state untouched; the request
    record stays processed under a further call. -/
theorem c8_already_processed_witness :
    process_deposit_request c8state (adminEnv 5) 1
      = ⟨Except.error ("Request already processed"), c8state, []⟩ ∧
    (stepOp c8state (Op.processDeposit (adminEnv 5) 1)).requests 1 =
      some { id := 1, request_type := RequestType.Deposit, wallet_address := 2, amount := 1000,
             collateral_amount := none, timestamp := 0, is_processed := true, block_number := 0,
             transaction_hash := 0 } := by
  have h := c8_already_processed c8state
    (reachable_runOps state0 (Reachable.init baseEnv) _)
  constructor
  · exact h.2.1 (adminEnv 5) 1
      { id := 1, request_type := RequestType.Deposit, wallet_address := 2, amount := 1000,
        collateral_amount := none, timestamp := 0, is_processed := true, block_number := 0,
        transaction_hash := 0 }
      (by decide) (by decide) (by decide) (by decide)
  · exact h.1 (Op.processDeposit (adminEnv 5) 1) 1
      { id := 1, request_type := RequestType.Deposit, wallet_address := 2, amount := 1000,
        collateral_amount := none, timestamp := 0, is_processed := true, block_number := 0,
        transaction_hash := 0 }
      (by decide) (by decide)

/-- C3: in every reachable state, for every stored user,
    active_balance + pending_withdrawals equals the total amount of the
    user's settled deposit requests minus the total amount of their settled
    withdrawal requests. -/
theorem c3_balance_conservation :
    ∀ (s : LsrwaExpress), Reachable s →
      ∀ (a : Nat) (u : User), s.users a = some u →
        ((u.active_balance : ℤ) + (u.pending_withdrawals : ℤ)
          = (settledSum s RequestType.Deposit a : ℤ)
            - (settledSum s RequestType.Withdrawal a : ℤ)) := by
  intro s h a u hu
  have hc := (reachable_inv s h).conserve a u hu
  omega

/-- C3 witness: after a settled deposit of 1000 and a settled withdrawal of
    300, the user's ledger satisfies 700 + 0 = 1000 - 300. -/
theorem c3_balance_conservation_witness :
    c3state.users 2 = some { wallet_address := 2, is_registered := true, active_balance := 700, pending_deposits := 0, pending_withdrawals := 0, total_rewards := 0, registered_at := 0 } ∧
    settledSum c3state RequestType.Deposit 2 = 1000 ∧
    settledSum c3state RequestType.Withdrawal 2 = 300 ∧
    ((700 : ℤ) + (0 : ℤ)
      = (settledSum c3state RequestType.Deposit 2 : ℤ)
        - (settledSum c3state RequestType.Withdrawal 2 : ℤ)) := by
  refine ⟨by decide, by decide, by decide, ?_⟩
  exact c3_balance_conservation c3state
    (reachable_runOps state0 (Reachable.init baseEnv) _) 2
    { wallet_address := 2, is_registered := true, active_balance := 700, pending_deposits := 0, pending_withdrawals := 0, total_rewards := 0, registered_at := 0 }
    (by decide)

/-- C7: in every reachable state all three balances are non-negative, and
    each unsigned subtraction the contract performs is guarded: a
    successful create_withdrawal_request debits at most the caller's active
    balance, a successful process_deposit_request subtracts at most the
    owner's pending_deposits, and a successful process_withdrawal_request
    subtracts at most the owner's pending_withdrawals — none of the
    subtractions can underflow. -/
theorem c7_no_underflow :
    ∀ (s : LsrwaExpress), Reachable s →
      (∀ (a : Nat) (u : User), s.users a = some u →
        (0 : ℤ) ≤ (u.active_balance : ℤ) ∧ (0 : ℤ) ≤ (u.pending_deposits : ℤ) ∧
        (0 : ℤ) ≤ (u.pending_withdrawals : ℤ)) ∧
      (∀ (e : Env) (amount rid : Nat),
        (create_withdrawal_request s e amount).res = Except.ok rid →
        ∃ u, s.users e.caller = some u ∧ amount ≤ u.active_balance) ∧
      (∀ (e : Env) (rid : Nat),
        (process_deposit_request s e rid).res = Except.ok () →
        ∃ r u, s.requests rid = some r ∧ s.users r.wallet_address = some u ∧
          r.amount ≤ u.pending_deposits) ∧
      (∀ (e : Env) (rid : Nat),
        (process_withdrawal_request s e rid).res = Except.ok () →
        ∃ r u, s.requests rid = some r ∧ s.users r.wallet_address = some u ∧
          r.amount ≤ u.pending_withdrawals) := by
  intro s hreach
  have hinv := reachable_inv s hreach
  refine ⟨?_, ?_, ?_, ?_⟩
  · intro a u _
    exact ⟨Int.natCast_nonneg _, Int.natCast_nonneg _, Int.natCast_nonneg _⟩
  · intro e amount rid hres
    rcases create_withdrawal_res_spec s e amount with ⟨_, _, _, hv⟩ | ⟨msg, herr, _⟩
    · obtain ⟨u, hu, _, _, hbal⟩ :=
        validate_withdrawal_valid_facts s e.block_timestamp e.caller amount hv
      exact ⟨u, hu, hbal⟩
    · rw [herr] at hres
      cases hres
  · intro e rid hres
    rcases process_deposit_spec s e rid with ⟨msg, hm⟩ | ⟨r, u, hr, hty, hp, hu, hreg, hauth⟩
    · rw [hm] at hres
      cases hres
    · have hk : rid < s.next_request_id := ((hinv.dom rid).mp (by rw [hr]; rfl)).2
      have c1 : contrib RequestType.Deposit r.wallet_address false (some r) = r.amount := by
        simp [contrib, hty, hp]
      have hle : r.amount ≤ u.pending_deposits := by
        rw [hinv.pdEq r.wallet_address u hu]
        have hcl := contrib_le_reqSum s RequestType.Deposit r.wallet_address false rid hk
        rw [hr, c1] at hcl
        exact hcl
      exact ⟨r, u, hr, hu, hle⟩
  · intro e rid hres
    rcases process_withdrawal_spec s e rid with ⟨msg, hm⟩ | ⟨r, u, hr, hty, hp, hu, hreg, hauth⟩
    · rw [hm] at hres
      cases hres
    · have hk : rid < s.next_request_id := ((hinv.dom rid).mp (by rw [hr]; rfl)).2
      have c1 : contrib RequestType.Withdrawal r.wallet_address false (some r) = r.amount := by
        simp [contrib, hty, hp]
      have hle : r.amount ≤ u.pending_withdrawals := by
        rw [hinv.pwEq r.wallet_address u hu]
        have hcl := contrib_le_reqSum s RequestType.Withdrawal r.wallet_address false rid hk
        rw [hr, c1] at hcl
        exact hcl
      exact ⟨r, u, hr, hu, hle⟩

/-- C7 witness: in the concrete state with a settled deposit of 1000, the
    successful withdrawal of 300 is covered by the active balance. -/
theorem c7_no_underflow_witness :
    (create_withdrawal_request c8state (bobEnv 0) 300).res = Except.ok 2 ∧
    (∃ u, c8state.users 2 = some u ∧ 300 ≤ u.active_balance) ∧
    (0 : ℤ) ≤ ((1000 : Nat) : ℤ) := by
  have h := c7_no_underflow c8state (reachable_runOps state0 (Reachable.init baseEnv) _)
  refine ⟨rfl, h.2.1 (bobEnv 0) 300 2 rfl, ?_⟩
  have h1 := h.1 2 { wallet_address := 2, is_registered := true, active_balance := 1000, pending_deposits := 0, pending_withdrawals := 0, total_rewards := 0, registered_at := 0 }
    (by decide)
  exact h1.1

/-- C9: request ids come from the single shared counter `next_request_id`:
    in every reachable state the stored requests occupy exactly the ids
    1 .. next_request_id - 1 with no gaps (across all types, each holding
    its own id), a successful creation of either type returns exactly
    `next_request_id` and advances the counter by one, a failed creation
    leaves the counter unchanged, and processing never changes it — so the
    n-th successfully created request of any type has id n. -/
theorem c9_sequential_ids :
    ∀ (s : LsrwaExpress), Reachable s →
      1 ≤ s.next_request_id ∧
      (∀ i, (s.requests i).isSome = true ↔ (1 ≤ i ∧ i < s.next_request_id)) ∧
      (∀ i r, s.requests i = some r → r.id = i) ∧
      (∀ (e : Env) (amount rid : Nat),
        (create_deposit_request s e amount).res = Except.ok rid →
        rid = s.next_request_id ∧
        (create_deposit_request s e amount).st.next_request_id = s.next_request_id + 1) ∧
      (∀ (e : Env) (amount : Nat) (msg : String),
        (create_deposit_request s e amount).res = Except.error msg →
        (create_deposit_request s e amount).st.next_request_id = s.next_request_id) ∧
      (∀ (e : Env) (amount rid : Nat),
        (create_withdrawal_request s e amount).res = Except.ok rid →
        rid = s.next_request_id ∧
        (create_withdrawal_request s e amount).st.next_request_id = s.next_request_id + 1) ∧
      (∀ (e : Env) (amount : Nat) (msg : String),
        (create_withdrawal_request s e amount).res = Except.error msg →
        (create_withdrawal_request s e amount).st.next_request_id = s.next_request_id) ∧
      (∀ (e : Env) (rid : Nat),
        (process_deposit_request s e rid).st.next_request_id = s.next_request_id) ∧
      (∀ (e : Env) (rid : Nat),
        (process_withdrawal_request s e rid).st.next_request_id = s.next_request_id) := by
  intro s hreach
  have hinv := reachable_inv s hreach
  refine ⟨hinv.oneLe, hinv.dom, hinv.idEq, ?_, ?_, ?_, ?_, ?_, ?_⟩
  · intro e amount rid hres
    rcases create_deposit_res_spec s e amount with ⟨hok, hn, _, _⟩ | ⟨msg, herr, _⟩
    · rw [hok] at hres
      cases hres
      exact ⟨rfl, hn⟩
    · rw [herr] at hres
      cases hres
  · intro e amount msg hres
    rcases create_deposit_res_spec s e amount with ⟨hok, _, _, _⟩ | ⟨msg1, herr, hn⟩
    · rw [hok] at hres
      cases hres
    · exact hn
  · intro e amount rid hres
    rcases create_withdrawal_res_spec s e amount with ⟨hok, hn, _, _⟩ | ⟨msg, herr, _⟩
    · rw [hok] at hres
      cases hres
      exact ⟨rfl, hn⟩
    · rw [herr] at hres
      cases hres
  · intro e amount msg hres
    rcases create_withdrawal_res_spec s e amount with ⟨hok, _, _, _⟩ | ⟨msg1, herr, hn⟩
    · rw [hok] at hres
      cases hres
    · exact hn
  · intro e rid
    rcases process_deposit_spec s e rid with ⟨msg, hm⟩ | ⟨r, u, hr, hty, hp, hu, hreg, hauth⟩
    · rw [hm]
    · rw [process_deposit_ok s e rid r u hauth hr hty hp hu hreg]
  · intro e rid
    rcases process_withdrawal_spec s e rid with ⟨msg, hm⟩ | ⟨r, u, hr, hty, hp, hu, hreg, hauth⟩
    · rw [hm]
    · rw [process_withdrawal_ok s e rid r u hauth hr hty hp hu hreg]

/-- C9 witness: in the concrete state holding exactly request 1, the
    counter is 2, slot 1 is occupied, a successful second deposit gets id 2
    and advances the counter to 3, and a failed (zero-amount) creation
    leaves the counter at 2. -/
theorem c9_sequential_ids_witness :
    1 ≤ c2state.next_request_id ∧
    (c2state.requests 1).isSome = true ∧
    (2 : Nat) = c2state.next_request_id ∧
    (create_deposit_request c2state (bobEnv 1) 500).st.next_request_id
      = c2state.next_request_id + 1 ∧
    (create_deposit_request c2state (bobEnv 1) 0).st.next_request_id
      = c2state.next_request_id := by
  have h := c9_sequential_ids c2state (reachable_runOps state0 (Reachable.init baseEnv) _)
  have hok := h.2.2.2.1 (bobEnv 1) 500 2 rfl
  have herr := h.2.2.2.2.1 (bobEnv 1) 0 ("Amount must be greater than zero") rfl
  exact ⟨h.1, (h.2.1 1).mpr (by decide), hok.1, hok.2, herr⟩

/-- The caller-visible error message `create_withdrawal_request` maps each
    non-Valid validation outcome to. -/
def withdrawalErrMsg : ValidationResult → String
  | ValidationResult.UserNotRegistered => "User not registered"
  | ValidationResult.InvalidAmount => "Amount is below minimum withdrawal amount"
  | ValidationResult.InsufficientBalance => "Insufficient balance for withdrawal"
  | ValidationResult.RequestLimitExceeded => "Too many pending requests"
  | ValidationResult.DailyLimitExceeded => "Daily withdrawal limit exceeded"
  | _ => "Validation failed"

/-- C5 (amended): withdrawal validation resolves its rules in exactly the
    precedence registration, minimum amount, balance sufficiency,
    pending-request cap, daily cap — the outcome is always the earliest
    violated rule — and for every nonzero amount
    `create_withdrawal_request` surfaces that outcome's error; when the
    amount is zero the zero-amount guard answers first instead, before any
    of the five rules. -/
theorem c5_validation_precedence :
    (∀ (s : LsrwaExpress) (t c a : Nat),
      (validate_withdrawal_request s t c a).1 =
        if regViolated s c then ValidationResult.UserNotRegistered
        else if minAmountViolated s a then ValidationResult.InvalidAmount
        else if balanceViolated s c a then ValidationResult.InsufficientBalance
        else if pendingCapViolated s c then ValidationResult.RequestLimitExceeded
        else if dailyCapViolated s t c a then ValidationResult.DailyLimitExceeded
        else ValidationResult.Valid) ∧
    (∀ (s : LsrwaExpress) (e : Env) (a : Nat), ¬ a = 0 →
      (validate_withdrawal_request s e.block_timestamp e.caller a).1 ≠ ValidationResult.Valid →
      (create_withdrawal_request s e a).res =
        Except.error (withdrawalErrMsg
          (validate_withdrawal_request s e.block_timestamp e.caller a).1)) ∧
    (∀ (s : LsrwaExpress) (e : Env),
      (create_withdrawal_request s e 0).res =
        Except.error ("Amount must be greater than zero")) := by
  refine ⟨validate_withdrawal_precedence, ?_, ?_⟩
  · intro s e a h0 hv
    rw [create_withdrawal_fail s e a h0 hv]
    show (match (validate_withdrawal_request s e.block_timestamp e.caller a).1 with
      | ValidationResult.UserNotRegistered => Except.error ("User not registered")
      | ValidationResult.InvalidAmount => Except.error ("Amount is below minimum withdrawal amount")
      | ValidationResult.InsufficientBalance => Except.error ("Insufficient balance for withdrawal")
      | ValidationResult.RequestLimitExceeded => Except.error ("Too many pending requests")
      | ValidationResult.DailyLimitExceeded => Except.error ("Daily withdrawal limit exceeded")
      | _ => Except.error ("Validation failed")) = _
    cases hvr : (validate_withdrawal_request s e.block_timestamp e.caller a).1
    all_goals rfl
  · intro s e
    rw [create_withdrawal_zero s e 0 rfl]

/-- C5 witness: on a fresh contract an unregistered caller with an amount
    below the minimum gets the registration error — the earliest violated
    rule in the precedence — from both the validator and the message. -/
theorem c5_validation_precedence_witness :
    (validate_withdrawal_request state0 0 2 5).1 = ValidationResult.UserNotRegistered ∧
    regViolated state0 2 = true ∧ minAmountViolated state0 5 = true ∧
    (create_withdrawal_request state0 (bobEnv 0) 5).res
      = Except.error ("User not registered") := by
  refine ⟨?_, by decide, by decide, ?_⟩
  · rw [c5_validation_precedence.1 state0 0 2 5]
    decide
  · have h := c5_validation_precedence.2.1 state0 (bobEnv 0) 5 (by decide) (by decide)
    rw [h]
    rfl

/-- C5 counterexample: with a zero amount the error of
    `create_withdrawal_request` is the zero-amount guard, not the earliest
    violated rule (registration, which is violated here together with the
    minimum-amount rule) — so the claim's statement about the message's
    error is false as written. -/
theorem c5_counterexample :
    regViolated state0 2 = true ∧ minAmountViolated state0 0 = true ∧
    (create_withdrawal_request state0 (bobEnv 0) 0).res
      = Except.error ("Amount must be greater than zero") ∧
    ¬ (create_withdrawal_request state0 (bobEnv 0) 0).res
      = Except.error ("User not registered") := by
  refine ⟨by decide, by decide, rfl, ?_⟩
  intro hc
  have h1 : (create_withdrawal_request state0 (bobEnv 0) 0).res
      = Except.error ("Amount must be greater than zero") := rfl
  have h2 := h1.symm.trans hc
  exact absurd (Except.error.inj h2) (by decide)

lemma validate_withdrawal_invalid_amount (s : LsrwaExpress) (t c a : Nat) (u : User)
    (hu : s.users c = some u) (hreg : u.is_registered = true)
    (hmin : a < s.min_withdrawal_amount) :
    validate_withdrawal_request s t c a = (ValidationResult.InvalidAmount, s) := by
  unfold validate_withdrawal_request
  rw [hu]
  simp only [hreg, Bool.true_eq_false, if_false, if_pos hmin]

lemma validate_withdrawal_insufficient (s : LsrwaExpress) (t c a : Nat) (u : User)
    (hu : s.users c = some u) (hreg : u.is_registered = true)
    (hmin : ¬ a < s.min_withdrawal_amount) (hbal : u.active_balance < a) :
    validate_withdrawal_request s t c a = (ValidationResult.InsufficientBalance, s) := by
  unfold validate_withdrawal_request
  rw [hu]
  simp only [hreg, Bool.true_eq_false, if_false, if_neg hmin, if_pos hbal]

/-- C4 (amended): an AmountTooLow or InsufficientBalance failure of request
    creation emits the RequestValidationFailed audit event (account, type,
    amount, outcome), creates no request and changes no state at all; an
    AmountZero failure also aborts with no state change and no request, but
    the zero-amount guard returns before validation, so it emits no audit
    event. -/
theorem c4_validation_failure_audit :
    (∀ (s : LsrwaExpress) (e : Env) (amount : Nat), ¬ amount = 0 →
      amount < s.min_deposit_amount →
      create_deposit_request s e amount =
        ⟨Except.error ("Amount is below minimum deposit amount"), s,
         [Event.RequestValidationFailed e.caller RequestType.Deposit amount
            ValidationResult.InvalidAmount e.block_timestamp]⟩) ∧
    (∀ (s : LsrwaExpress) (e : Env) (amount : Nat) (u : User),
      s.users e.caller = some u → u.is_registered = true → ¬ amount = 0 →
      amount < s.min_withdrawal_amount →
      create_withdrawal_request s e amount =
        ⟨Except.error ("Amount is below minimum withdrawal amount"), s,
         [Event.RequestValidationFailed e.caller RequestType.Withdrawal amount
            ValidationResult.InvalidAmount e.block_timestamp]⟩) ∧
    (∀ (s : LsrwaExpress) (e : Env) (amount : Nat) (u : User),
      s.users e.caller = some u → u.is_registered = true → ¬ amount = 0 →
      ¬ amount < s.min_withdrawal_amount → u.active_balance < amount →
      create_withdrawal_request s e amount =
        ⟨Except.error ("Insufficient balance for withdrawal"), s,
         [Event.RequestValidationFailed e.caller RequestType.Withdrawal amount
            ValidationResult.InsufficientBalance e.block_timestamp]⟩) ∧
    (∀ (s : LsrwaExpress) (e : Env),
      create_deposit_request s e 0 =
        ⟨Except.error ("Amount must be greater than zero"), s, []⟩) ∧
    (∀ (s : LsrwaExpress) (e : Env),
      create_withdrawal_request s e 0 =
        ⟨Except.error ("Amount must be greater than zero"), s, []⟩) := by
  refine ⟨?_, ?_, ?_, ?_, ?_⟩
  · intro s e amount h0 hmin
    have hv : validate_deposit_request s e.caller amount = ValidationResult.InvalidAmount := by
      unfold validate_deposit_request
      rw [if_pos hmin]
    rw [create_deposit_fail s e amount h0 (by rw [hv]; decide), hv]
  · intro s e amount u hu hreg h0 hmin
    have hv := validate_withdrawal_invalid_amount s e.block_timestamp e.caller amount u
      hu hreg hmin
    rw [create_withdrawal_fail s e amount h0 (by rw [hv]; simp), hv]
  · intro s e amount u hu hreg h0 hmin hbal
    have hv := validate_withdrawal_insufficient s e.block_timestamp e.caller amount u
      hu hreg hmin hbal
    rw [create_withdrawal_fail s e amount h0 (by rw [hv]; simp), hv]
  · intro s e
    exact create_deposit_zero s e 0 rfl
  · intro s e
    exact create_withdrawal_zero s e 0 rfl

/-- C4 witness: a concrete below-minimum deposit and an insufficient-balance
    withdrawal both abort with the audit event and no other change. -/
theorem c4_validation_failure_audit_witness :
    create_deposit_request state0 (bobEnv 0) 5 =
      ⟨Except.error ("Amount is below minimum deposit amount"), state0,
       [Event.RequestValidationFailed 2 RequestType.Deposit 5
          ValidationResult.InvalidAmount 0]⟩ ∧
    create_withdrawal_request c8state (bobEnv 0) 5000 =
      ⟨Except.error ("Insufficient balance for withdrawal"), c8state,
       [Event.RequestValidationFailed 2 RequestType.Withdrawal 5000
          ValidationResult.InsufficientBalance 0]⟩ := by
  constructor
  · exact c4_validation_failure_audit.1 state0 (bobEnv 0) 5 (by decide) (by decide)
  · exact c4_validation_failure_audit.2.2.1 c8state (bobEnv 0) 5000
      { wallet_address := 2, is_registered := true, active_balance := 1000, pending_deposits := 0, pending_withdrawals := 0, total_rewards := 0, registered_at := 0 }
      (by decide) (by decide) (by decide) (by decide) (by decide)

/-- C4 counterexample: an AmountZero failure of `create_deposit_request` —
    an input-validation error per the claim — emits no RequestValidationFailed
    audit event at all: the emitted event list is empty. -/
theorem c4_counterexample :
    (create_deposit_request state0 (bobEnv 0) 0).res
      = Except.error ("Amount must be greater than zero") ∧
    (create_deposit_request state0 (bobEnv 0) 0).ev = [] ∧
    (create_withdrawal_request state0 (bobEnv 0) 0).ev = [] := by
  exact ⟨rfl, rfl, rfl⟩

lemma validate_withdrawal_daily_acc (s : LsrwaExpress) (t c a : Nat) (u : User)
    (hu : s.users c = some u) (hreg : u.is_registered = true)
    (hmin : ¬ a < s.min_withdrawal_amount) (hbal : ¬ u.active_balance < a)
    (hcap : ¬ s.max_pending_requests ≤
      pendingCountLoop s ((s.user_withdrawal_requests c).getD []))
    (hacc : ¬ (s.last_limit_reset c).getD 0 + 86400000 < t)
    (hex : s.daily_withdrawal_limit < (s.daily_withdrawal_total c).getD 0 + a) :
    validate_withdrawal_request s t c a =
      (ValidationResult.DailyLimitExceeded,
       { s with daily_withdrawal_total := mput (mput s.daily_withdrawal_total c ((s.daily_withdrawal_total c).getD 0 + a)) c ((s.daily_withdrawal_total c).getD 0 + a - a) }) := by
  unfold validate_withdrawal_request
  rw [hu]
  simp only [hreg, Bool.true_eq_false, if_false, if_neg hmin, if_neg hbal, if_neg hcap,
    if_neg hacc, if_pos hex]

lemma validate_withdrawal_daily_reset (s : LsrwaExpress) (t c a : Nat) (u : User)
    (hu : s.users c = some u) (hreg : u.is_registered = true)
    (hmin : ¬ a < s.min_withdrawal_amount) (hbal : ¬ u.active_balance < a)
    (hcap : ¬ s.max_pending_requests ≤
      pendingCountLoop s ((s.user_withdrawal_requests c).getD []))
    (hrs : (s.last_limit_reset c).getD 0 + 86400000 < t)
    (hex : s.daily_withdrawal_limit < a) :
    validate_withdrawal_request s t c a =
      (ValidationResult.DailyLimitExceeded,
       { s with last_limit_reset := mput s.last_limit_reset c t, daily_withdrawal_total := mput (mput s.daily_withdrawal_total c a) c (a - a) }) := by
  unfold validate_withdrawal_request
  rw [hu]
  simp only [hreg, Bool.true_eq_false, if_false, if_neg hmin, if_neg hbal, if_neg hcap,
    if_pos hrs, if_pos hex]

/-- C1 (amended): when `create_withdrawal_request` fails with
    DailyLimitExceeded inside the current window
    (now ≤ last_limit_reset + 1 day), the whole `last_limit_reset` map is
    untouched and the caller's accumulated total (read with default 0) is
    restored, other accounts' totals being untouched; but when the failure
    happens after the window has expired (now > last_limit_reset + 1 day),
    the window reset survives the rollback: `last_limit_reset` is set to
    now and the caller's `daily_withdrawal_total` is left at 0, not at its
    pre-call value. -/
theorem c1_daily_limit_rollback :
    ∀ (s : LsrwaExpress) (e : Env) (amount : Nat) (u : User),
      s.users e.caller = some u → u.is_registered = true → ¬ amount = 0 →
      ¬ amount < s.min_withdrawal_amount → ¬ u.active_balance < amount →
      ¬ s.max_pending_requests ≤
        pendingCountLoop s ((s.user_withdrawal_requests e.caller).getD []) →
      ((¬ (s.last_limit_reset e.caller).getD 0 + 86400000 < e.block_timestamp →
        s.daily_withdrawal_limit < (s.daily_withdrawal_total e.caller).getD 0 + amount →
        (create_withdrawal_request s e amount).res
          = Except.error ("Daily withdrawal limit exceeded") ∧
        (create_withdrawal_request s e amount).st.last_limit_reset = s.last_limit_reset ∧
        ((create_withdrawal_request s e amount).st.daily_withdrawal_total e.caller).getD 0
          = (s.daily_withdrawal_total e.caller).getD 0 ∧
        (∀ q, ¬ q = e.caller →
          (create_withdrawal_request s e amount).st.daily_withdrawal_total q
            = s.daily_withdrawal_total q)) ∧
      ((s.last_limit_reset e.caller).getD 0 + 86400000 < e.block_timestamp →
        s.daily_withdrawal_limit < amount →
        (create_withdrawal_request s e amount).res
          = Except.error ("Daily withdrawal limit exceeded") ∧
        (create_withdrawal_request s e amount).st.last_limit_reset e.caller
          = some e.block_timestamp ∧
        (create_withdrawal_request s e amount).st.daily_withdrawal_total e.caller
          = some 0)) := by
  intro s e amount u hu hreg h0 hmin hbal hcap
  constructor
  · intro hacc hex
    have hv := validate_withdrawal_daily_acc s e.block_timestamp e.caller amount u
      hu hreg hmin hbal hcap hacc hex
    rw [create_withdrawal_fail s e amount h0 (by rw [hv]; simp), hv]
    refine ⟨rfl, rfl, ?_, ?_⟩
    · show ((mput (mput s.daily_withdrawal_total e.caller _) e.caller _) e.caller).getD 0 = _
      rw [mput, if_pos rfl]
      show (s.daily_withdrawal_total e.caller).getD 0 + amount - amount = _
      omega
    · intro q hq
      show (mput (mput s.daily_withdrawal_total e.caller _) e.caller _) q = _
      rw [mput, if_neg hq, mput, if_neg hq]
  · intro hrs hex
    have hv := validate_withdrawal_daily_reset s e.block_timestamp e.caller amount u
      hu hreg hmin hbal hcap hrs hex
    rw [create_withdrawal_fail s e amount h0 (by rw [hv]; simp), hv]
    refine ⟨rfl, ?_, ?_⟩
    · show (mput s.last_limit_reset e.caller e.block_timestamp) e.caller = _
      rw [mput, if_pos rfl]
    · show (mput (mput s.daily_withdrawal_total e.caller amount) e.caller (amount - amount))
          e.caller = _
      rw [mput, if_pos rfl, Nat.sub_self]

/-- C1 witness: both failure branches on the concrete day-one state — an
    in-window failure restores the window exactly, an after-window failure
    sets the window start to now and the total to 0. -/
theorem c1_daily_limit_rollback_witness :
    ((create_withdrawal_request c1state (bobEnv 1000) 15000).res
      = Except.error ("Daily withdrawal limit exceeded") ∧
     (create_withdrawal_request c1state (bobEnv 1000) 15000).st.last_limit_reset
      = c1state.last_limit_reset ∧
     ((create_withdrawal_request c1state (bobEnv 1000) 15000).st.daily_withdrawal_total 2).getD 0
      = (c1state.daily_withdrawal_total 2).getD 0) ∧
    ((create_withdrawal_request c1state (bobEnv 86400001) 15000).res
      = Except.error ("Daily withdrawal limit exceeded") ∧
     (create_withdrawal_request c1state (bobEnv 86400001) 15000).st.last_limit_reset 2
      = some 86400001 ∧
     (create_withdrawal_request c1state (bobEnv 86400001) 15000).st.daily_withdrawal_total 2
      = some 0) := by
  have h1 := c1_daily_limit_rollback c1state (bobEnv 1000) 15000
    { wallet_address := 2, is_registered := true, active_balance := 15000, pending_deposits := 0, pending_withdrawals := 5000, total_rewards := 0, registered_at := 0 }
    (by decide) (by decide) (by decide) (by decide) (by decide) (by decide)
  have h2 := c1_daily_limit_rollback c1state (bobEnv 86400001) 15000
    { wallet_address := 2, is_registered := true, active_balance := 15000, pending_deposits := 0, pending_withdrawals := 5000, total_rewards := 0, registered_at := 0 }
    (by decide) (by decide) (by decide) (by decide) (by decide) (by decide)
  have ha := h1.1 (by decide) (by decide)
  have hb := h2.2 (by decide) (by decide)
  exact ⟨⟨ha.1, ha.2.1, ha.2.2.1⟩, ⟨hb.1, hb.2.1, hb.2.2⟩⟩

/-- C1 counterexample: a DailyLimitExceeded failure in the expired-window
    branch leaves the caller's rate-limit window changed: before the call
    last_limit_reset is absent (window start 0) and the stored total is
    5000; after the failing call last_limit_reset is 86400001 and the total
    is 0 — the speculative window mutation is not rolled back. -/
theorem c1_counterexample :
    (create_withdrawal_request c1state (bobEnv 86400001) 15000).res
      = Except.error ("Daily withdrawal limit exceeded") ∧
    c1state.last_limit_reset 2 = none ∧
    (create_withdrawal_request c1state (bobEnv 86400001) 15000).st.last_limit_reset 2
      = some 86400001 ∧
    c1state.daily_withdrawal_total 2 = some 5000 ∧
    (create_withdrawal_request c1state (bobEnv 86400001) 15000).st.daily_withdrawal_total 2
      = some 0 := by
  exact ⟨rfl, by decide, by decide, by decide, by decide⟩

/-- C10 (amended): Scenario D with daily_withdrawal_limit 10000 and a
    settled balance of 20000 — a first withdrawal of 10000 succeeds; the
    same day, a second withdrawal of any amount between the configured
    minimum (10) and the remaining balance fails with DailyLimitExceeded
    (amounts outside that range fail earlier rules instead); and once more
    than one day has passed since the window start, a withdrawal of any
    such amount up to 10000 succeeds again — the window resets exactly
    when now > window_start + 86400000 ms and accumulates otherwise. -/
theorem c10_scenario_d :
    (create_withdrawal_request d10pre (bobEnv 0) 10000).res = Except.ok 2 ∧
    (∀ a, 10 ≤ a → a ≤ 10000 →
      (create_withdrawal_request d10s3 (bobEnv 1000) a).res
        = Except.error ("Daily withdrawal limit exceeded")) ∧
    (∀ a, 10 ≤ a → a ≤ 10000 →
      (create_withdrawal_request d10s3 (bobEnv 86400001) a).res = Except.ok 3) := by
  refine ⟨rfl, ?_, ?_⟩
  · intro a h1 h2
    have h0 : ¬ a = 0 := by omega
    have hR : regViolated d10s3 2 = false := by decide
    have hM : minAmountViolated d10s3 a = false := by
      unfold minAmountViolated
      have hm : d10s3.min_withdrawal_amount = 10 := by decide
      rw [hm]
      exact decide_eq_false (by omega)
    have hB : balanceViolated d10s3 2 a = false := by
      unfold balanceViolated
      have hu : d10s3.users 2 = some { wallet_address := 2, is_registered := true, active_balance := 10000, pending_deposits := 0, pending_withdrawals := 10000, total_rewards := 0, registered_at := 0 } := by decide
      rw [hu]
      exact decide_eq_false (by show ¬ (10000 < a); omega)
    have hP : pendingCapViolated d10s3 2 = false := by decide
    have hD : dailyCapViolated d10s3 1000 2 a = true := by
      have e1 : d10s3.last_limit_reset 2 = none := by decide
      have e2 : d10s3.daily_withdrawal_total 2 = some 10000 := by decide
      have e3 : d10s3.daily_withdrawal_limit = 10000 := by decide
      unfold dailyCapViolated
      rw [e1, e2, e3]
      simp only [Option.getD_none, Option.getD_some]
      rw [if_neg (by omega)]
      exact decide_eq_true (by omega)
    have hv : (validate_withdrawal_request d10s3 (bobEnv 1000).block_timestamp
        (bobEnv 1000).caller a).1 = ValidationResult.DailyLimitExceeded := by
      show (validate_withdrawal_request d10s3 1000 2 a).1 = ValidationResult.DailyLimitExceeded
      rw [validate_withdrawal_precedence, hR, hM, hB, hP, hD]
      simp
    rw [create_withdrawal_fail d10s3 (bobEnv 1000) a h0 (by rw [hv]; simp)]
    show (match (validate_withdrawal_request d10s3 (bobEnv 1000).block_timestamp
        (bobEnv 1000).caller a).1 with
      | ValidationResult.UserNotRegistered => Except.error ("User not registered")
      | ValidationResult.InvalidAmount => Except.error ("Amount is below minimum withdrawal amount")
      | ValidationResult.InsufficientBalance => Except.error ("Insufficient balance for withdrawal")
      | ValidationResult.RequestLimitExceeded => Except.error ("Too many pending requests")
      | ValidationResult.DailyLimitExceeded => Except.error ("Daily withdrawal limit exceeded")
      | _ => Except.error ("Validation failed")) = _
    rw [hv]
  · intro a h1 h2
    have h0 : ¬ a = 0 := by omega
    have hR : regViolated d10s3 2 = false := by decide
    have hM : minAmountViolated d10s3 a = false := by
      unfold minAmountViolated
      have hm : d10s3.min_withdrawal_amount = 10 := by decide
      rw [hm]
      exact decide_eq_false (by omega)
    have hB : balanceViolated d10s3 2 a = false := by
      unfold balanceViolated
      have hu : d10s3.users 2 = some { wallet_address := 2, is_registered := true, active_balance := 10000, pending_deposits := 0, pending_withdrawals := 10000, total_rewards := 0, registered_at := 0 } := by decide
      rw [hu]
      exact decide_eq_false (by show ¬ (10000 < a); omega)
    have hP : pendingCapViolated d10s3 2 = false := by decide
    have hD : dailyCapViolated d10s3 86400001 2 a = false := by
      have e1 : d10s3.last_limit_reset 2 = none := by decide
      have e3 : d10s3.daily_withdrawal_limit = 10000 := by decide
      unfold dailyCapViolated
      rw [e1, e3]
      simp only [Option.getD_none]
      have hif : (if 0 + 86400000 < 86400001 then a
          else (d10s3.daily_withdrawal_total 2).getD 0 + a) = a := if_pos (by omega)
      apply decide_eq_false
      rw [hif]
      omega
    have hv : (validate_withdrawal_request d10s3 (bobEnv 86400001).block_timestamp
        (bobEnv 86400001).caller a).1 = ValidationResult.Valid := by
      show (validate_withdrawal_request d10s3 86400001 2 a).1 = ValidationResult.Valid
      rw [validate_withdrawal_precedence, hR, hM, hB, hP, hD]
      simp
    obtain ⟨llr, dwt, hk⟩ := validate_withdrawal_keeps d10s3 (bobEnv 86400001).block_timestamp
      (bobEnv 86400001).caller a
    rw [create_withdrawal_ok d10s3 (bobEnv 86400001) a
      { wallet_address := 2, is_registered := true, active_balance := 10000, pending_deposits := 0, pending_withdrawals := 10000, total_rewards := 0, registered_at := 0 }
      llr dwt h0 hv hk (by decide)]
    show Except.ok d10s3.next_request_id = Except.ok 3
    rw [show d10s3.next_request_id = 3 from by decide]

/-- C10 witness: the second-withdrawal failure at a concrete in-range
    amount (1000) and the next-day success at the full limit (10000). -/
theorem c10_scenario_d_witness :
    (create_withdrawal_request d10s3 (bobEnv 1000) 1000).res
      = Except.error ("Daily withdrawal limit exceeded") ∧
    (create_withdrawal_request d10s3 (bobEnv 86400001) 10000).res = Except.ok 3 := by
  exact ⟨c10_scenario_d.2.1 1000 (by decide) (by decide),
         c10_scenario_d.2.2 10000 (by decide) (by decide)⟩

/-- C10 counterexample: an immediate second withdrawal of amount 5 — "any
    amount" per the claim — fails with the minimum-amount error, not with
    DailyLimitExceeded, so the claim's "any amount" is false as stated. -/
theorem c10_counterexample :
    (create_withdrawal_request d10s3 (bobEnv 1000) 5).res
      = Except.error ("Amount is below minimum withdrawal amount") ∧
    ¬ (create_withdrawal_request d10s3 (bobEnv 1000) 5).res
      = Except.error ("Daily withdrawal limit exceeded") := by
  refine ⟨rfl, ?_⟩
  intro hc
  have h1 : (create_withdrawal_request d10s3 (bobEnv 1000) 5).res
      = Except.error ("Amount is below minimum withdrawal amount") := rfl
  exact absurd (Except.error.inj (h1.symm.trans hc)) (by decide)
